import Mathlib

/-!
Shallow embedding of the GiftNFT marketplace ledger (src/server.js, src/store.js).

JS objects become Lean structures; balances, prices, amounts, stars and levels
are JS numbers and are modelled as rationals (`ℚ`); `nanoid()` ids and
`Date.now()` timestamps are nondeterministic at the source and are passed in as
explicit parameters.  In-place mutation of an object returned by
`Array.prototype.find` is modelled as `updateFirst`: rewriting the first list
element that satisfies the predicate.  `res.status(...).json(...)` responses
become the `Outcome` type: `ok` (HTTP 200 and `saveDB`), `err` (an error status;
note that `transact` in store.js still calls `saveDB` on the unmodified
snapshot) and `crash` (an uncaught JS exception inside the mutator, so `saveDB`
is never reached and the persisted snapshot is the pre-state).  Socket.io
emissions are external side effects and are not part of the snapshot.
-/

namespace GiftNFT

/-- A user record (see `seed` and `/api/auth/register` in server.js). -/
structure User where
  id : String
  name : String
  email : String
  pass : String
  role : String
  balance : ℚ
  owned : List String
  gifts : ℚ
  banned : Bool
deriving DecidableEq, Repr

/-- An item record (see `/api/admin/items/create`). -/
structure Item where
  id : String
  name : String
  price : ℚ
  rating : ℚ
  img : String
  collection : String
  stars : ℚ
  level : ℚ
  ownerId : Option String
  createdAt : Nat
deriving DecidableEq, Repr

/-- A payment record (see the model comment above `/api/payments/mine`). -/
structure Payment where
  id : String
  userId : String
  kind : String
  amountTon : ℚ
  usd : ℚ
  tonAddress : Option String
  status : String
  ts : Nat
  adminId : Option String
  note : Option String
deriving DecidableEq, Repr

/-- A history entry (`db.history.push({ userId, t, ts })`). -/
structure HistoryEntry where
  userId : String
  t : String
  ts : Nat
deriving DecidableEq, Repr

/-- A notification record (see `pushNotify`); the structured payload is
modelled by the id of the entity it mentions. -/
structure Notification where
  id : String
  userId : String
  ntype : String
  payload : String
  read : Bool
  ts : Nat
deriving DecidableEq, Repr

/-- The whole durable snapshot (`db.json`). -/
structure DB where
  users : List User
  items : List Item
  payments : List Payment
  history : List HistoryEntry
  notifications : List Notification
deriving DecidableEq, Repr

/-- `const TON_USD = 3.5`. -/
def TON_USD : ℚ := 7 / 2

/-- `+(x).toFixed(2)` — rounding to two decimals (JS float formatting is
abstracted to exact rational half-up rounding). -/
def toFixed2 (x : ℚ) : ℚ := ((Rat.floor (x * 100 + 1 / 2) : ℤ) : ℚ) / 100

/-- Rewrite the first element satisfying `p` — the model of JS mutating the
object returned by `Array.prototype.find`. -/
def updateFirst (p : α → Bool) (f : α → α) : List α → List α
  | [] => []
  | x :: xs => if p x then f x :: xs else x :: updateFirst p f xs

/-- Remove the first element satisfying `p` — the model of
`findIndex` + `splice(idx, 1)`. -/
def eraseFirst (p : α → Bool) : List α → List α
  | [] => []
  | x :: xs => if p x then xs else x :: eraseFirst p xs

/-- `db.users.find(u => u.id === uid)`. -/
def findUser (db : DB) (uid : String) : Option User :=
  db.users.find? (fun u => u.id == uid)

/-- `db.items.find(x => x.id === iid)`. -/
def findItem (db : DB) (iid : String) : Option Item :=
  db.items.find? (fun x => x.id == iid)

/-- `(db.payments||[]).find(x => x.id === pid)`. -/
def findPayment (db : DB) (pid : String) : Option Payment :=
  db.payments.find? (fun x => x.id == pid)

/-- The result of one HTTP handler run: `ok`/`err` both persist the snapshot
they carry (store.js `transact` always calls `saveDB`); `crash` is an uncaught
exception inside the mutator, so the pre-state stays persisted. -/
inductive Outcome where
  | ok (db : DB)
  | err (status : Nat) (msg : String) (db : DB)
  | crash (db : DB)
deriving DecidableEq, Repr

/-- The snapshot left persisted by the handler run. -/
def Outcome.db : Outcome → DB
  | .ok d => d
  | .err _ _ d => d
  | .crash d => d

/-- Did the handler answer `res.json({ ok:true, ... })`? -/
def Outcome.isOk : Outcome → Bool
  | .ok _ => true
  | _ => false

/-- The HTTP status and error message of a rejected run, if any. -/
def Outcome.errInfo : Outcome → Option (Nat × String)
  | .err s m _ => some (s, m)
  | _ => none

/-- `pushNotify(db, userId, type, payload)`. -/
def pushNotify (db : DB) (nid userId ntype payload : String) (now : Nat) : DB :=
  { db with notifications :=
      db.notifications ++ [⟨nid, userId, ntype, payload, false, now⟩] }

/-- `POST /api/payments/deposit/request` (server.js:153-167). -/
def depositRequest (callerId : String) (amountTon : ℚ) (pid nid : String)
    (now : Nat) (db : DB) : Outcome :=
  if amountTon ≤ 0 then .err 400 "amountTon > 0 required" db
  else
    let pay : Payment :=
      { id := pid, userId := callerId, kind := "deposit", amountTon := amountTon,
        usd := toFixed2 (amountTon * TON_USD), tonAddress := none,
        status := "pending", ts := now, adminId := none, note := none }
    let db1 := { db with payments := db.payments ++ [pay] }
    .ok (pushNotify db1 nid callerId "deposit_requested" pid now)

/-- The unit of work inside `POST /api/payments/withdraw/request`
(server.js:174-188): the body of the `transact` callback. -/
def withdrawMutator (callerId : String) (amt : ℚ) (tonAddress pid nid : String)
    (now : Nat) (db : DB) : Outcome :=
  match findUser db callerId with
  | none => .err 404 "User not found" db
  | some me =>
    if me.balance < amt then .err 400 "Insufficient balance" db
    else
      let users1 := updateFirst (fun u => u.id == callerId)
        (fun u => { u with balance := u.balance - amt }) db.users
      let pay : Payment :=
        { id := pid, userId := callerId, kind := "withdraw", amountTon := amt,
          usd := toFixed2 (amt * TON_USD), tonAddress := some tonAddress,
          status := "pending", ts := now, adminId := none, note := none }
      let hist1 : HistoryEntry :=
        ⟨callerId, "Withdrawal requested " ++ toString amt ++ " TON to "
            ++ tonAddress ++ " (held)", now⟩
      let db1 := { db with users := users1,
                           payments := db.payments ++ [pay],
                           history := db.history ++ [hist1] }
      .ok (pushNotify db1 nid callerId "withdraw_requested" pid now)

/-- `POST /api/payments/withdraw/request` (server.js:169-189), request-body
validation included. -/
def withdrawRequest (callerId : String) (amt : ℚ) (tonAddress pid nid : String)
    (now : Nat) (db : DB) : Outcome :=
  if amt ≤ 0 then .err 400 "amountTon > 0 required" db
  else if tonAddress.length < 5 then .err 400 "Valid tonAddress required" db
  else withdrawMutator callerId amt tonAddress pid nid now db

/-- `POST /api/admin/payments/approve` (server.js:201-223). -/
def approve (adminCallerId payId nid : String) (now : Nat) (db : DB) : Outcome :=
  if payId = "" then .err 400 "id required" db
  else match findPayment db payId with
  | none => .err 404 "Payment not found" db
  | some p =>
    if p.status ≠ "pending" then .err 400 "Already processed" db
    else match findUser db p.userId with
    | none => .err 404 "User not found" db
    | some user =>
      let histD : HistoryEntry :=
        ⟨user.id, "Deposit approved " ++ toString p.amountTon ++ " TON", now⟩
      let histW : HistoryEntry :=
        ⟨user.id, "Withdrawal approved " ++ toString p.amountTon ++ " TON to "
            ++ (p.tonAddress.getD ""), now⟩
      let usersD := updateFirst (fun u => u.id == p.userId)
        (fun u => { u with balance := u.balance + p.amountTon }) db.users
      let db1 :=
        if p.kind == "deposit" then
          { db with users := usersD, history := db.history ++ [histD] }
        else if p.kind == "withdraw" then
          { db with history := db.history ++ [histW] }
        else db
      let pays2 := updateFirst (fun x => x.id == payId)
        (fun x => { x with status := "approved", adminId := some adminCallerId })
        db1.payments
      let db2 := { db1 with payments := pays2 }
      .ok (pushNotify db2 nid user.id "payment_approved" p.id now)

/-- `POST /api/admin/payments/reject` (server.js:225-245). -/
def reject (adminCallerId payId note nid : String) (now : Nat) (db : DB) : Outcome :=
  if payId = "" then .err 400 "id required" db
  else match findPayment db payId with
  | none => .err 404 "Payment not found" db
  | some p =>
    if p.status ≠ "pending" then .err 400 "Already processed" db
    else match findUser db p.userId with
    | none => .err 404 "User not found" db
    | some user =>
      let histR : HistoryEntry :=
        ⟨user.id, "Withdrawal rejected " ++ toString p.amountTon
            ++ " TON (refunded)", now⟩
      let usersR := updateFirst (fun u => u.id == p.userId)
        (fun u => { u with balance := u.balance + p.amountTon }) db.users
      let db1 :=
        if p.kind == "withdraw" then
          { db with users := usersR, history := db.history ++ [histR] }
        else db
      let pays2 := updateFirst (fun x => x.id == payId)
        (fun x => { x with status := "rejected", adminId := some adminCallerId,
                           note := some note })
        db1.payments
      let db2 := { db1 with payments := pays2 }
      .ok (pushNotify db2 nid user.id "payment_rejected" p.id now)

/-- `POST /api/tx/pay` (server.js:265-298).  `crash` is the uncaught JS
`TypeError` raised by `buyer.balance` when `db.users.find(u=>u.id===req.user.id)`
returned `undefined`. -/
def pay (callerId itemId mode toUserId : String) (now : Nat) (db : DB) : Outcome :=
  if itemId = "" ∨ mode = "" then .err 400 "itemId and mode required" db
  else
    let buyerOpt := findUser db callerId
    match findItem db itemId with
    | none => .err 404 "Item not found" db
    | some item =>
      if item.ownerId.isSome then .err 400 "Already sold" db
      else
        let price := item.price
        if mode = "buy" then
          match buyerOpt with
          | none => .crash db
          | some buyer =>
            if buyer.balance < price then .err 400 "Insufficient balance" db
            else
              let users1 := updateFirst (fun u => u.id == callerId)
                (fun u => { u with balance := u.balance - price,
                                   owned := u.owned ++ [item.id] }) db.users
              let items1 := updateFirst (fun x => x.id == itemId)
                (fun x => { x with ownerId := some buyer.id }) db.items
              let hist1 : HistoryEntry :=
                ⟨buyer.id, "Bought " ++ item.id ++ " for " ++ toString price
                    ++ " TON", now⟩
              .ok { db with users := users1, items := items1,
                            history := db.history ++ [hist1] }
        else if mode = "gift" then
          if toUserId = "" then .err 400 "toUserId required for gift mode" db
          else match findUser db toUserId with
          | none => .err 404 "Recipient not found" db
          | some recipient =>
            match buyerOpt with
            | none => .crash db
            | some buyer =>
              if buyer.balance < price then .err 400 "Insufficient balance" db
              else
                let users1 := updateFirst (fun u => u.id == callerId)
                  (fun u => { u with balance := u.balance - price }) db.users
                let users2 := updateFirst (fun u => u.id == toUserId)
                  (fun u => { u with owned := u.owned ++ [item.id],
                                     gifts := u.gifts + 1 }) users1
                let items1 := updateFirst (fun x => x.id == itemId)
                  (fun x => { x with ownerId := some recipient.id }) db.items
                let hist1 : HistoryEntry :=
                  ⟨buyer.id, "Gifted " ++ item.id ++ " to " ++ recipient.id
                      ++ " for " ++ toString price ++ " TON", now⟩
                let hist2 : HistoryEntry :=
                  ⟨recipient.id, "Received gift " ++ item.id ++ " from "
                      ++ buyer.id, now⟩
                .ok { db with users := users2, items := items1,
                              history := db.history ++ [hist1, hist2] }
        else .err 400 "Invalid mode" db

/-- `POST /api/nft/upgrade` (server.js:301-315). -/
def upgrade (callerId itemId : String) (now : Nat) (db : DB) : Outcome :=
  if itemId = "" then .err 400 "id required" db
  else match findItem db itemId with
  | none => .err 404 "Item not found" db
  | some item =>
    if item.ownerId ≠ some callerId then .err 403 "Not owner" db
    else
      let items1 := updateFirst (fun x => x.id == itemId)
        (fun x => { x with stars := max 0 (x.stars - 1),
                           level := x.level + 1 }) db.items
      let hist1 : HistoryEntry :=
        ⟨callerId, "Upgraded " ++ item.id ++ " to level "
            ++ toString (item.level + 1) ++ " (stars "
            ++ toString (max 0 (item.stars - 1)) ++ ")", now⟩
      .ok { db with items := items1, history := db.history ++ [hist1] }

/-- `POST /api/admin/gift` (server.js:323-344): the recipient is charged the
item's stored price. -/
def adminGift (toUserId itemId : String) (now : Nat) (db : DB) : Outcome :=
  if toUserId = "" ∨ itemId = "" then .err 400 "toUserId and itemId required" db
  else match findUser db toUserId with
  | none => .err 404 "User not found" db
  | some user =>
    match findItem db itemId with
    | none => .err 404 "Item not found" db
    | some item =>
      if item.ownerId.isSome then .err 400 "Already owned" db
      else if user.balance < item.price then
        .err 400 "Recipient has insufficient balance to be charged" db
      else
        let users1 := updateFirst (fun u => u.id == toUserId)
          (fun u => { u with balance := u.balance - item.price,
                             owned := u.owned ++ [item.id],
                             gifts := u.gifts + 1 }) db.users
        let items1 := updateFirst (fun x => x.id == itemId)
          (fun x => { x with ownerId := some user.id }) db.items
        let hist1 : HistoryEntry :=
          ⟨user.id, "Admin issued gift " ++ item.id ++ " (charged "
              ++ toString item.price ++ " TON)", now⟩
        .ok { db with users := users1, items := items1,
                      history := db.history ++ [hist1] }

/-- `POST /api/admin/users/balance` (server.js:369-380): signed delta,
floored at zero. -/
def adminUsersBalance (userId : String) (delta : ℚ) (now : Nat) (db : DB) : Outcome :=
  if userId = "" then .err 400 "userId and numeric delta required" db
  else match findUser db userId with
  | none => .err 404 "User not found" db
  | some _ =>
    let users1 := updateFirst (fun u => u.id == userId)
      (fun u => { u with balance := max 0 (u.balance + delta) }) db.users
    let hist1 : HistoryEntry :=
      ⟨userId, "Admin balance " ++ (if delta ≥ 0 then "credit" else "debit")
          ++ " " ++ toString |delta| ++ " TON", now⟩
    .ok { db with users := users1, history := db.history ++ [hist1] }

/-- `POST /api/admin/users/ban` (server.js:381-391). -/
def adminUsersBan (userId : String) (b : Bool) (db : DB) : Outcome :=
  if userId = "" then .err 400 "userId and banned boolean required" db
  else match findUser db userId with
  | none => .err 404 "User not found" db
  | some _ =>
    let users1 := updateFirst (fun u => u.id == userId)
      (fun u => { u with banned := b }) db.users
    .ok { db with users := users1 }

/-- `POST /api/admin/items/create` (server.js:394-405): the new id is
`'nft_' + (1000 + db.items.length)`.  (`encodeURIComponent` in the fallback
image URL is abstracted away.) -/
def itemsCreate (name : String) (price : ℚ) (img : Option String)
    (collection : String) (rating : ℚ) (now : Nat) (db : DB) : Outcome :=
  if name = "" then .err 400 "name and numeric price required" db
  else
    let id := "nft_" ++ toString (1000 + db.items.length)
    let item : Item :=
      { id := id, name := name, price := price, rating := rating,
        img := img.getD ("https://picsum.photos/seed/" ++ name ++ "/800"),
        collection := collection, stars := 3, level := 0, ownerId := none,
        createdAt := now }
    .ok { db with items := db.items ++ [item] }

/-- The `...fields` rest object of `POST /api/admin/items/update`: any subset
of an item's fields except `id` (which the handler destructures away). -/
structure ItemFields where
  name : Option String := none
  price : Option ℚ := none
  rating : Option ℚ := none
  img : Option String := none
  collection : Option String := none
  stars : Option ℚ := none
  level : Option ℚ := none
  ownerId : Option (Option String) := none
  createdAt : Option Nat := none
deriving DecidableEq, Repr

/-- `Object.assign(it, fields)`. -/
def applyFields (fs : ItemFields) (it : Item) : Item :=
  { it with name := fs.name.getD it.name, price := fs.price.getD it.price,
            rating := fs.rating.getD it.rating, img := fs.img.getD it.img,
            collection := fs.collection.getD it.collection,
            stars := fs.stars.getD it.stars, level := fs.level.getD it.level,
            ownerId := fs.ownerId.getD it.ownerId,
            createdAt := fs.createdAt.getD it.createdAt }

/-- `POST /api/admin/items/update` (server.js:406-417). -/
def itemsUpdate (id : String) (fs : ItemFields) (db : DB) : Outcome :=
  if id = "" then .err 400 "id required" db
  else match findItem db id with
  | none => .err 404 "Item not found" db
  | some _ =>
    .ok { db with items := updateFirst (fun x => x.id == id) (applyFields fs) db.items }

/-- `POST /api/admin/items/delete` (server.js:418-428): `findIndex` + `splice`. -/
def itemsDelete (id : String) (db : DB) : Outcome :=
  match findItem db id with
  | none => .err 404 "Item not found" db
  | some _ => .ok { db with items := eraseFirst (fun x => x.id == id) db.items }

/-- `POST /api/admin/items/clear` (server.js:429-436). -/
def itemsClear (db : DB) : Outcome :=
  .ok { db with items := [] }

/-- One row of the `POST /api/admin/items/bulkImport` payload; `none` models
an absent JS field. -/
structure ImportRow where
  name : Option String := none
  price : Option ℚ := none
  rating : Option ℚ := none
  img : Option String := none
  collection : Option String := none
  stars : Option ℚ := none
  level : Option ℚ := none
  ownerId : Option String := none
deriving DecidableEq, Repr

/-- JS `Number(x)||d`: an absent field or the (falsy) number 0 falls back to
the default. -/
def orDefault (v : Option ℚ) (d : ℚ) : ℚ :=
  match v with
  | none => d
  | some r => if r = 0 then d else r

/-- The `items.forEach` body of bulkImport (server.js:441-444); the per-row
fallback image URL's index is abstracted away. -/
def bulkImportStep (now : Nat) (db : DB) (x : ImportRow) : DB :=
  let id := "nft_" ++ toString (1000 + db.items.length)
  let item : Item :=
    { id := id, name := x.name.getD ("Item " ++ id),
      price := orDefault x.price 0, rating := orDefault x.rating 5,
      img := x.img.getD "https://picsum.photos/seed/i/800",
      collection := x.collection.getD "Default",
      stars := orDefault x.stars 3, level := orDefault x.level 0,
      ownerId := x.ownerId, createdAt := now }
  { db with items := db.items ++ [item] }

/-- `POST /api/admin/items/bulkImport` (server.js:437-449). -/
def bulkImport (rows : List ImportRow) (now : Nat) (db : DB) : Outcome :=
  .ok (rows.foldl (bulkImportStep now) db)

/-- `POST /api/admin/transfer` (server.js:452-473). -/
def transfer (itemId toUserId : String) (now : Nat) (db : DB) : Outcome :=
  if itemId = "" ∨ toUserId = "" then .err 400 "itemId and toUserId required" db
  else match findItem db itemId with
  | none => .err 404 "Item not found" db
  | some it =>
    match findUser db toUserId with
    | none => .err 404 "Target user not found" db
    | some toU =>
      let users1 :=
        match it.ownerId with
        | some prevId => updateFirst (fun u => u.id == prevId)
            (fun u => { u with owned := u.owned.filter (fun i => !(i == it.id)) })
            db.users
        | none => db.users
      let users2 := updateFirst (fun u => u.id == toUserId)
        (fun u => if it.id ∈ u.owned then u
                  else { u with owned := u.owned ++ [it.id] }) users1
      let items1 := updateFirst (fun x => x.id == itemId)
        (fun x => { x with ownerId := some toU.id }) db.items
      let hist1 : HistoryEntry :=
        ⟨toU.id, "Admin transferred " ++ it.id ++ " to " ++ toU.id, now⟩
      .ok { db with users := users2, items := items1,
                    history := db.history ++ [hist1] }

/-- `POST /api/admin/burn` (server.js:474-492): removes the item from its
owner's list, then filters out every item with that id. -/
def burn (itemId : String) (now : Nat) (db : DB) : Outcome :=
  if itemId = "" then .err 400 "itemId required" db
  else match findItem db itemId with
  | none => .err 404 "Item not found" db
  | some it =>
    let users1 :=
      match it.ownerId with
      | some ownerId => updateFirst (fun u => u.id == ownerId)
          (fun u => { u with owned := u.owned.filter (fun i => !(i == it.id)) })
          db.users
      | none => db.users
    let items1 := db.items.filter (fun x => !(x.id == it.id))
    let hist1 : HistoryEntry :=
      ⟨it.ownerId.getD "system", "Admin burned " ++ it.id, now⟩
    .ok { db with users := users1, items := items1,
                  history := db.history ++ [hist1] }

/-- Every modelled ledger operation, as a single submission type. -/
inductive Op where
  | depositRequest (callerId : String) (amountTon : ℚ) (pid nid : String) (now : Nat)
  | withdrawRequest (callerId : String) (amountTon : ℚ) (tonAddress pid nid : String) (now : Nat)
  | approve (adminCallerId payId nid : String) (now : Nat)
  | reject (adminCallerId payId note nid : String) (now : Nat)
  | pay (callerId itemId mode toUserId : String) (now : Nat)
  | upgrade (callerId itemId : String) (now : Nat)
  | adminGift (toUserId itemId : String) (now : Nat)
  | adminUsersBalance (userId : String) (delta : ℚ) (now : Nat)
  | adminUsersBan (userId : String) (b : Bool)
  | itemsCreate (name : String) (price : ℚ) (img : Option String) (collection : String) (rating : ℚ) (now : Nat)
  | itemsUpdate (id : String) (fs : ItemFields)
  | itemsDelete (id : String)
  | itemsClear
  | bulkImport (rows : List ImportRow) (now : Nat)
  | transfer (itemId toUserId : String) (now : Nat)
  | burn (itemId : String) (now : Nat)

/-- Dispatch one operation against a snapshot. -/
def runOp : Op → DB → Outcome
  | .depositRequest c a p n t, db => depositRequest c a p n t db
  | .withdrawRequest c a addr p n t, db => withdrawRequest c a addr p n t db
  | .approve adm p n t, db => approve adm p n t db
  | .reject adm p note n t, db => reject adm p note n t db
  | .pay c i m u t, db => pay c i m u t db
  | .upgrade c i t, db => upgrade c i t db
  | .adminGift u i t, db => adminGift u i t db
  | .adminUsersBalance u d t, db => adminUsersBalance u d t db
  | .adminUsersBan u b, db => adminUsersBan u b db
  | .itemsCreate n p im c r t, db => itemsCreate n p im c r t db
  | .itemsUpdate i fs, db => itemsUpdate i fs db
  | .itemsDelete i, db => itemsDelete i db
  | .itemsClear, db => itemsClear db
  | .bulkImport rows t, db => bulkImport rows t db
  | .transfer i u t, db => transfer i u t db
  | .burn i t, db => burn i t db

/-- Two submissions racing on store.js's `transact`: `transact` takes no lock,
so both `loadDB` reads can complete (each `await fs.readFile` yields the event
loop) before either `saveDB` write.  Both mutators then run against the same
pre-state and the second `saveDB` is the one that persists. -/
def racyPair (f g : DB → Outcome) (s0 : DB) : Outcome × Outcome × DB :=
  let o1 := f s0
  let o2 := g s0
  (o1, o2, o2.db)

/-- The same two submissions when they happen to run serially: the second
`loadDB` reads the snapshot the first `saveDB` wrote. -/
def serialPair (f g : DB → Outcome) (s0 : DB) : Outcome × Outcome × DB :=
  let o1 := f s0
  let o2 := g o1.db
  (o1, o2, o2.db)

/-! ### Basic lemmas about `updateFirst`, `eraseFirst` and `find?` -/

theorem updateFirst_of_find?_none {p : α → Bool} {f : α → α} {l : List α}
    (h : l.find? p = none) : updateFirst p f l = l := by
  induction l with
  | nil => rfl
  | cons x xs ih =>
    rw [List.find?_cons] at h
    cases hx : p x with
    | true => simp [hx] at h
    | false =>
      simp only [hx] at h
      simp [updateFirst, hx, ih h]

theorem find?_updateFirst_self {p : α → Bool} {f : α → α} {l : List α} {a : α}
    (h : l.find? p = some a) (hp : p (f a) = true) :
    (updateFirst p f l).find? p = some (f a) := by
  induction l with
  | nil => simp at h
  | cons x xs ih =>
    rw [List.find?_cons] at h
    cases hx : p x with
    | true =>
      simp only [hx] at h
      cases h
      simp [updateFirst, hx, List.find?_cons, hp]
    | false =>
      simp only [hx] at h
      simp [updateFirst, hx, List.find?_cons, ih h]

/-- A successful `find?` splits the list at the first hit. -/
theorem find?_decomp {p : α → Bool} {l : List α} {a : α}
    (h : l.find? p = some a) :
    ∃ l₁ l₂, l = l₁ ++ a :: l₂ ∧ (∀ x ∈ l₁, p x = false) ∧ p a = true := by
  induction l with
  | nil => simp at h
  | cons x xs ih =>
    rw [List.find?_cons] at h
    cases hx : p x with
    | true =>
      simp only [hx] at h
      cases h
      exact ⟨[], xs, by simp, by simp, hx⟩
    | false =>
      simp only [hx] at h
      obtain ⟨l₁, l₂, rfl, hl₁, hpa⟩ := ih h
      exact ⟨x :: l₁, l₂, rfl, by simpa [hx] using hl₁, hpa⟩

theorem updateFirst_append_sat {p : α → Bool} {f : α → α} (l₁ l₂ : List α) (a : α)
    (hl₁ : ∀ x ∈ l₁, p x = false) (hpa : p a = true) :
    updateFirst p f (l₁ ++ a :: l₂) = l₁ ++ f a :: l₂ := by
  induction l₁ with
  | nil => simp [updateFirst, hpa]
  | cons x xs ih =>
    have hx : p x = false := hl₁ x (by simp)
    simp only [List.cons_append, updateFirst, hx]
    simp only [Bool.false_eq_true, if_false, List.cons.injEq, true_and]
    exact ih (fun y hy => hl₁ y (by simp [hy]))

/-- `updateFirst` rewrites exactly the first hit. -/
theorem updateFirst_decomp {p : α → Bool} (f : α → α) {l : List α} {a : α}
    (h : l.find? p = some a) :
    ∃ l₁ l₂, l = l₁ ++ a :: l₂ ∧ updateFirst p f l = l₁ ++ f a :: l₂ ∧
      (∀ x ∈ l₁, p x = false) ∧ p a = true := by
  obtain ⟨l₁, l₂, rfl, hl₁, hpa⟩ := find?_decomp h
  exact ⟨l₁, l₂, rfl, updateFirst_append_sat l₁ l₂ a hl₁ hpa, hl₁, hpa⟩

theorem mem_updateFirst {p : α → Bool} {f : α → α} {l : List α} {x : α}
    (hx : x ∈ updateFirst p f l) : x ∈ l ∨ ∃ a, l.find? p = some a ∧ x = f a := by
  cases hfind : l.find? p with
  | none => rw [updateFirst_of_find?_none hfind] at hx; exact Or.inl hx
  | some a =>
    obtain ⟨l₁, l₂, hl, hu, _, _⟩ := updateFirst_decomp f hfind
    rw [hu] at hx
    rcases List.mem_append.1 hx with h1 | h2
    · exact Or.inl (hl ▸ List.mem_append.2 (Or.inl h1))
    · rcases List.mem_cons.1 h2 with rfl | h3
      · exact Or.inr ⟨a, rfl, rfl⟩
      · exact Or.inl (hl ▸ List.mem_append.2 (Or.inr (List.mem_cons_of_mem _ h3)))

theorem find?_append_last {p : α → Bool} {l : List α} {x : α}
    (hl : ∀ y ∈ l, p y = false) (hx : p x = true) :
    (l ++ [x]).find? p = some x := by
  induction l with
  | nil => simp [List.find?_cons, hx]
  | cons y ys ih =>
    have hy : p y = false := hl y (by simp)
    simp only [List.cons_append, List.find?_cons, hy]
    exact ih (fun z hz => hl z (by simp [hz]))

/-! ### Success-path characterisations of the payment operations -/

theorem depositRequest_ok_spec {c : String} {A : ℚ} {pid nid : String} {t : Nat}
    {db : DB} (hA0 : 0 < A) :
    depositRequest c A pid nid t db = .ok
      { db with
          payments := db.payments ++
            [⟨pid, c, "deposit", A, toFixed2 (A * TON_USD), none, "pending", t,
              none, none⟩],
          notifications := db.notifications ++
            [⟨nid, c, "deposit_requested", pid, false, t⟩] } := by
  unfold depositRequest pushNotify
  rw [if_neg (not_le.2 hA0)]

theorem withdrawRequest_ok_spec {c : String} {A : ℚ} {addr pid nid : String}
    {t : Nat} {db : DB} {u : User}
    (hu : db.users.find? (fun x => x.id == c) = some u)
    (hA0 : 0 < A) (hAB : A ≤ u.balance) (haddr : 5 ≤ addr.length) :
    withdrawRequest c A addr pid nid t db = .ok
      { db with
          users := updateFirst (fun x => x.id == c)
            (fun x => { x with balance := x.balance - A }) db.users,
          payments := db.payments ++
            [⟨pid, c, "withdraw", A, toFixed2 (A * TON_USD), some addr, "pending",
              t, none, none⟩],
          history := db.history ++
            [⟨c, "Withdrawal requested " ++ toString A ++ " TON to " ++ addr
                ++ " (held)", t⟩],
          notifications := db.notifications ++
            [⟨nid, c, "withdraw_requested", pid, false, t⟩] } := by
  unfold withdrawRequest withdrawMutator pushNotify
  rw [if_neg (not_le.2 hA0), if_neg (Nat.not_lt.2 haddr)]
  simp only [findUser, hu]
  rw [if_neg (not_lt.2 hAB)]

theorem approve_ok_withdraw_spec {adm pid nid : String} {t : Nat} {db : DB}
    {p : Payment} {user : User}
    (hpid : pid ≠ "")
    (hp : db.payments.find? (fun x => x.id == pid) = some p)
    (hstat : p.status = "pending") (hkind : p.kind = "withdraw")
    (huser : db.users.find? (fun x => x.id == p.userId) = some user) :
    approve adm pid nid t db = .ok
      { db with
          history := db.history ++
            [⟨user.id, "Withdrawal approved " ++ toString p.amountTon
                ++ " TON to " ++ (p.tonAddress.getD ""), t⟩],
          payments := updateFirst (fun x => x.id == pid)
            (fun x => { x with status := "approved", adminId := some adm })
            db.payments,
          notifications := db.notifications ++
            [⟨nid, user.id, "payment_approved", p.id, false, t⟩] } := by
  unfold approve pushNotify
  rw [if_neg hpid]
  simp only [findPayment, hp, findUser, huser, hstat, hkind]
  simp

theorem approve_ok_deposit_spec {adm pid nid : String} {t : Nat} {db : DB}
    {p : Payment} {user : User}
    (hpid : pid ≠ "")
    (hp : db.payments.find? (fun x => x.id == pid) = some p)
    (hstat : p.status = "pending") (hkind : p.kind = "deposit")
    (huser : db.users.find? (fun x => x.id == p.userId) = some user) :
    approve adm pid nid t db = .ok
      { db with
          users := updateFirst (fun x => x.id == p.userId)
            (fun x => { x with balance := x.balance + p.amountTon }) db.users,
          history := db.history ++
            [⟨user.id, "Deposit approved " ++ toString p.amountTon ++ " TON", t⟩],
          payments := updateFirst (fun x => x.id == pid)
            (fun x => { x with status := "approved", adminId := some adm })
            db.payments,
          notifications := db.notifications ++
            [⟨nid, user.id, "payment_approved", p.id, false, t⟩] } := by
  unfold approve pushNotify
  rw [if_neg hpid]
  simp only [findPayment, hp, findUser, huser, hstat, hkind]
  simp

theorem reject_ok_withdraw_spec {adm pid note nid : String} {t : Nat} {db : DB}
    {p : Payment} {user : User}
    (hpid : pid ≠ "")
    (hp : db.payments.find? (fun x => x.id == pid) = some p)
    (hstat : p.status = "pending") (hkind : p.kind = "withdraw")
    (huser : db.users.find? (fun x => x.id == p.userId) = some user) :
    reject adm pid note nid t db = .ok
      { db with
          users := updateFirst (fun x => x.id == p.userId)
            (fun x => { x with balance := x.balance + p.amountTon }) db.users,
          history := db.history ++
            [⟨user.id, "Withdrawal rejected " ++ toString p.amountTon
                ++ " TON (refunded)", t⟩],
          payments := updateFirst (fun x => x.id == pid)
            (fun x => { x with status := "rejected", adminId := some adm,
                               note := some note }) db.payments,
          notifications := db.notifications ++
            [⟨nid, user.id, "payment_rejected", p.id, false, t⟩] } := by
  unfold reject pushNotify
  rw [if_neg hpid]
  simp only [findPayment, hp, findUser, huser, hstat, hkind]
  simp

theorem reject_ok_deposit_spec {adm pid note nid : String} {t : Nat} {db : DB}
    {p : Payment} {user : User}
    (hpid : pid ≠ "")
    (hp : db.payments.find? (fun x => x.id == pid) = some p)
    (hstat : p.status = "pending") (hkind : p.kind = "deposit")
    (huser : db.users.find? (fun x => x.id == p.userId) = some user) :
    reject adm pid note nid t db = .ok
      { db with
          payments := updateFirst (fun x => x.id == pid)
            (fun x => { x with status := "rejected", adminId := some adm,
                               note := some note }) db.payments,
          notifications := db.notifications ++
            [⟨nid, user.id, "payment_rejected", p.id, false, t⟩] } := by
  unfold reject pushNotify
  rw [if_neg hpid]
  simp only [findPayment, hp, findUser, huser, hstat, hkind]
  simp

theorem pay_buy_ok_spec {c itemId tu : String} {t : Nat} {db : DB}
    {buyer : User} {item : Item}
    (hiid : itemId ≠ "")
    (hbuyer : db.users.find? (fun x => x.id == c) = some buyer)
    (hitem : db.items.find? (fun x => x.id == itemId) = some item)
    (hunowned : item.ownerId = none)
    (hbal : ¬ buyer.balance < item.price) :
    pay c itemId "buy" tu t db = .ok
      { db with
          users := updateFirst (fun x => x.id == c)
            (fun x => { x with balance := x.balance - item.price,
                               owned := x.owned ++ [item.id] }) db.users,
          items := updateFirst (fun x => x.id == itemId)
            (fun x => { x with ownerId := some buyer.id }) db.items,
          history := db.history ++
            [⟨buyer.id, "Bought " ++ item.id ++ " for " ++ toString item.price
                ++ " TON", t⟩] } := by
  unfold pay
  rw [if_neg (by simp [hiid])]
  simp only [findItem, hitem, findUser, hbuyer, hunowned, Option.isSome_none,
    Bool.false_eq_true, if_false, reduceIte]
  rw [if_neg hbal]

theorem pay_gift_ok_spec {c itemId tu : String} {t : Nat} {db : DB}
    {buyer recipient : User} {item : Item}
    (hiid : itemId ≠ "") (htu : tu ≠ "")
    (hbuyer : db.users.find? (fun x => x.id == c) = some buyer)
    (hrec : db.users.find? (fun x => x.id == tu) = some recipient)
    (hitem : db.items.find? (fun x => x.id == itemId) = some item)
    (hunowned : item.ownerId = none)
    (hbal : ¬ buyer.balance < item.price) :
    pay c itemId "gift" tu t db = .ok
      { db with
          users := updateFirst (fun x => x.id == tu)
            (fun x => { x with owned := x.owned ++ [item.id],
                               gifts := x.gifts + 1 })
            (updateFirst (fun x => x.id == c)
              (fun x => { x with balance := x.balance - item.price }) db.users),
          items := updateFirst (fun x => x.id == itemId)
            (fun x => { x with ownerId := some recipient.id }) db.items,
          history := db.history ++
            [⟨buyer.id, "Gifted " ++ item.id ++ " to " ++ recipient.id
                ++ " for " ++ toString item.price ++ " TON", t⟩,
             ⟨recipient.id, "Received gift " ++ item.id ++ " from "
                ++ buyer.id, t⟩] } := by
  unfold pay
  rw [if_neg (by simp [hiid])]
  simp only [findItem, hitem, findUser, hbuyer, hrec, hunowned,
    Option.isSome_none, Bool.false_eq_true, if_false, reduceIte,
    String.reduceEq]
  rw [if_neg htu, if_neg hbal]

theorem adminGift_ok_spec {tu itemId : String} {t : Nat} {db : DB}
    {user : User} {item : Item}
    (htu : tu ≠ "") (hiid : itemId ≠ "")
    (huser : db.users.find? (fun x => x.id == tu) = some user)
    (hitem : db.items.find? (fun x => x.id == itemId) = some item)
    (hunowned : item.ownerId = none)
    (hbal : ¬ user.balance < item.price) :
    adminGift tu itemId t db = .ok
      { db with
          users := updateFirst (fun x => x.id == tu)
            (fun x => { x with balance := x.balance - item.price,
                               owned := x.owned ++ [item.id],
                               gifts := x.gifts + 1 }) db.users,
          items := updateFirst (fun x => x.id == itemId)
            (fun x => { x with ownerId := some user.id }) db.items,
          history := db.history ++
            [⟨user.id, "Admin issued gift " ++ item.id ++ " (charged "
                ++ toString item.price ++ " TON)", t⟩] } := by
  unfold adminGift
  rw [if_neg (by simp [htu, hiid])]
  simp only [findUser, huser, findItem, hitem, hunowned, Option.isSome_none,
    Bool.false_eq_true, if_false, reduceIte]
  rw [if_neg hbal]

theorem upgrade_ok_spec {c itemId : String} {t : Nat} {db : DB} {item : Item}
    (hiid : itemId ≠ "")
    (hitem : db.items.find? (fun x => x.id == itemId) = some item)
    (howner : item.ownerId = some c) :
    upgrade c itemId t db = .ok
      { db with
          items := updateFirst (fun x => x.id == itemId)
            (fun x => { x with stars := max 0 (x.stars - 1),
                               level := x.level + 1 }) db.items,
          history := db.history ++
            [⟨c, "Upgraded " ++ item.id ++ " to level "
                ++ toString (item.level + 1) ++ " (stars "
                ++ toString (max 0 (item.stars - 1)) ++ ")", t⟩] } := by
  unfold upgrade
  rw [if_neg hiid]
  simp only [findItem, hitem, howner]
  simp

/-! ### Every rejection path leaves the snapshot unchanged (helper lemmas) -/

theorem depositRequest_err {c : String} {a : ℚ} {p n : String} {t : Nat}
    {db : DB} {s : Nat} {m : String} {db' : DB}
    (h : depositRequest c a p n t db = .err s m db') : db' = db := by
  unfold depositRequest at h
  try simp only [] at h
  repeat' split at h
  all_goals (try (cases h; rfl))
  all_goals (cases h)

theorem withdrawRequest_err {c : String} {a : ℚ} {addr p n : String} {t : Nat}
    {db : DB} {s : Nat} {m : String} {db' : DB}
    (h : withdrawRequest c a addr p n t db = .err s m db') : db' = db := by
  unfold withdrawRequest withdrawMutator at h
  try simp only [] at h
  repeat' split at h
  all_goals (try (cases h; rfl))
  all_goals (cases h)

theorem approve_err {adm p n : String} {t : Nat}
    {db : DB} {s : Nat} {m : String} {db' : DB}
    (h : approve adm p n t db = .err s m db') : db' = db := by
  unfold approve at h
  try simp only [] at h
  repeat' split at h
  all_goals (try (cases h; rfl))
  all_goals (cases h)

theorem reject_err {adm p note n : String} {t : Nat}
    {db : DB} {s : Nat} {m : String} {db' : DB}
    (h : reject adm p note n t db = .err s m db') : db' = db := by
  unfold reject at h
  try simp only [] at h
  repeat' split at h
  all_goals (try (cases h; rfl))
  all_goals (cases h)

theorem pay_err {c i mo u : String} {t : Nat}
    {db : DB} {s : Nat} {m : String} {db' : DB}
    (h : pay c i mo u t db = .err s m db') : db' = db := by
  unfold pay at h
  try simp only [] at h
  repeat' split at h
  all_goals (try (cases h; rfl))
  all_goals (cases h)

theorem upgrade_err {c i : String} {t : Nat}
    {db : DB} {s : Nat} {m : String} {db' : DB}
    (h : upgrade c i t db = .err s m db') : db' = db := by
  unfold upgrade at h
  try simp only [] at h
  repeat' split at h
  all_goals (try (cases h; rfl))
  all_goals (cases h)

theorem adminGift_err {u i : String} {t : Nat}
    {db : DB} {s : Nat} {m : String} {db' : DB}
    (h : adminGift u i t db = .err s m db') : db' = db := by
  unfold adminGift at h
  try simp only [] at h
  repeat' split at h
  all_goals (try (cases h; rfl))
  all_goals (cases h)

theorem adminUsersBalance_err {u : String} {d : ℚ} {t : Nat}
    {db : DB} {s : Nat} {m : String} {db' : DB}
    (h : adminUsersBalance u d t db = .err s m db') : db' = db := by
  unfold adminUsersBalance at h
  try simp only [] at h
  repeat' split at h
  all_goals (try (cases h; rfl))
  all_goals (cases h)

theorem adminUsersBan_err {u : String} {b : Bool}
    {db : DB} {s : Nat} {m : String} {db' : DB}
    (h : adminUsersBan u b db = .err s m db') : db' = db := by
  unfold adminUsersBan at h
  try simp only [] at h
  repeat' split at h
  all_goals (try (cases h; rfl))
  all_goals (cases h)

theorem itemsCreate_err {n : String} {p : ℚ} {im : Option String}
    {c : String} {r : ℚ} {t : Nat}
    {db : DB} {s : Nat} {m : String} {db' : DB}
    (h : itemsCreate n p im c r t db = .err s m db') : db' = db := by
  unfold itemsCreate at h
  try simp only [] at h
  repeat' split at h
  all_goals (try (cases h; rfl))
  all_goals (cases h)

theorem itemsUpdate_err {i : String} {fs : ItemFields}
    {db : DB} {s : Nat} {m : String} {db' : DB}
    (h : itemsUpdate i fs db = .err s m db') : db' = db := by
  unfold itemsUpdate at h
  try simp only [] at h
  repeat' split at h
  all_goals (try (cases h; rfl))
  all_goals (cases h)

theorem itemsDelete_err {i : String}
    {db : DB} {s : Nat} {m : String} {db' : DB}
    (h : itemsDelete i db = .err s m db') : db' = db := by
  unfold itemsDelete at h
  try simp only [] at h
  repeat' split at h
  all_goals (try (cases h; rfl))
  all_goals (cases h)

theorem itemsClear_err {db : DB} {s : Nat} {m : String} {db' : DB}
    (h : itemsClear db = .err s m db') : db' = db := by
  unfold itemsClear at h
  cases h

theorem bulkImport_err {rows : List ImportRow} {t : Nat}
    {db : DB} {s : Nat} {m : String} {db' : DB}
    (h : bulkImport rows t db = .err s m db') : db' = db := by
  unfold bulkImport at h
  cases h

theorem transfer_err {i u : String} {t : Nat}
    {db : DB} {s : Nat} {m : String} {db' : DB}
    (h : transfer i u t db = .err s m db') : db' = db := by
  unfold transfer at h
  try simp only [] at h
  repeat' split at h
  all_goals (try (cases h; rfl))
  all_goals (cases h)

theorem burn_err {i : String} {t : Nat}
    {db : DB} {s : Nat} {m : String} {db' : DB}
    (h : burn i t db = .err s m db') : db' = db := by
  unfold burn at h
  try simp only [] at h
  repeat' split at h
  all_goals (try (cases h; rfl))
  all_goals (cases h)

/-! ### The two-sided ownership invariant (spec §3, Item) -/

/-- Computable check of one side of the invariant: the item's owner, if set,
is a user that lists this item in its owned set. -/
def ownerListedB (users : List User) (it : Item) : Bool :=
  match it.ownerId with
  | none => true
  | some uid => users.any (fun u => u.id == uid && u.owned.contains it.id)

/-- Computable check of the other side: every id in the user's owned set is an
item owned by that user. -/
def ownedBackedB (items : List Item) (u : User) : Bool :=
  u.owned.all (fun iid =>
    items.any (fun it => it.id == iid && it.ownerId == some u.id))

/-- The spec's ownership invariant, computable on a snapshot. -/
def ownershipConsistent (db : DB) : Bool :=
  db.items.all (ownerListedB db.users) && db.users.all (ownedBackedB db.items)

/-- Propositional form of `ownerListedB`, over both collections. -/
def OwnerListed (users : List User) (items : List Item) : Prop :=
  ∀ it ∈ items, ∀ uid, it.ownerId = some uid →
    ∃ u, u ∈ users ∧ u.id = uid ∧ it.id ∈ u.owned

/-- Propositional form of `ownedBackedB`, over both collections. -/
def OwnedBacked (users : List User) (items : List Item) : Prop :=
  ∀ u ∈ users, ∀ iid ∈ u.owned,
    ∃ it, it ∈ items ∧ it.id = iid ∧ it.ownerId = some u.id

theorem ownerListedB_iff {users : List User} {it : Item} :
    ownerListedB users it = true ↔
      ∀ uid, it.ownerId = some uid →
        ∃ u, u ∈ users ∧ u.id = uid ∧ it.id ∈ u.owned := by
  unfold ownerListedB
  cases h : it.ownerId with
  | none => simp
  | some uid =>
    simp only [List.any_eq_true, Bool.and_eq_true, beq_iff_eq]
    constructor
    · rintro ⟨u, hu, hid, hc⟩ uid' huid'
      cases huid'
      exact ⟨u, hu, hid, by simpa [List.elem_iff] using hc⟩
    · rintro hall
      obtain ⟨u, hu, hid, hc⟩ := hall uid rfl
      exact ⟨u, hu, hid, by simpa [List.elem_iff] using hc⟩

theorem ownedBackedB_iff {items : List Item} {u : User} :
    ownedBackedB items u = true ↔
      ∀ iid ∈ u.owned, ∃ it, it ∈ items ∧ it.id = iid ∧
        it.ownerId = some u.id := by
  unfold ownedBackedB
  simp only [List.all_eq_true, List.any_eq_true, Bool.and_eq_true, beq_iff_eq]

theorem ownershipConsistent_iff {db : DB} :
    ownershipConsistent db = true ↔
      OwnerListed db.users db.items ∧ OwnedBacked db.users db.items := by
  unfold ownershipConsistent OwnerListed OwnedBacked
  simp only [Bool.and_eq_true, List.all_eq_true]
  constructor
  · rintro ⟨h1, h2⟩
    exact ⟨fun it hit => (ownerListedB_iff).1 (h1 it hit),
           fun u hu => (ownedBackedB_iff).1 (h2 u hu)⟩
  · rintro ⟨h1, h2⟩
    exact ⟨fun it hit => (ownerListedB_iff).2 (h1 it hit),
           fun u hu => (ownedBackedB_iff).2 (h2 u hu)⟩

/-! ### List transport lemmas for the invariant proofs -/

/-- Every list member survives `updateFirst`, possibly rewritten. -/
theorem exists_mem_updateFirst {p : α → Bool} {f : α → α} {l : List α} {x : α}
    (hx : x ∈ l) : ∃ y ∈ updateFirst p f l, y = x ∨ y = f x := by
  induction l with
  | nil => cases hx
  | cons a as ih =>
    rcases List.mem_cons.1 hx with rfl | hxs
    · cases hpa : p x with
      | true => exact ⟨f x, by simp [updateFirst, hpa], Or.inr rfl⟩
      | false => exact ⟨x, by simp [updateFirst, hpa], Or.inl rfl⟩
    · cases hpa : p a with
      | true =>
        exact ⟨x, by simp [updateFirst, hpa, hxs], Or.inl rfl⟩
      | false =>
        obtain ⟨y, hy, hyy⟩ := ih hxs
        exact ⟨y, by simp [updateFirst, hpa, hy], hyy⟩

/-- A `find?` hit for a predicate that the update cannot change survives
`updateFirst` for any other predicate, possibly rewritten. -/
theorem find?_updateFirst_stable {p q : α → Bool} {f : α → α} {l : List α}
    {a : α} (h : l.find? q = some a) (hqf : ∀ x, q (f x) = q x) :
    ∃ a', (updateFirst p f l).find? q = some a' ∧ (a' = a ∨ a' = f a) := by
  induction l with
  | nil => cases h
  | cons x xs ih =>
    rw [List.find?_cons] at h
    cases hqx : q x with
    | true =>
      simp only [hqx] at h
      cases h
      cases hpx : p a with
      | true =>
        refine ⟨f a, ?_, Or.inr rfl⟩
        simp [updateFirst, hpx, List.find?_cons, hqf, hqx]
      | false =>
        refine ⟨a, ?_, Or.inl rfl⟩
        simp [updateFirst, hpx, List.find?_cons, hqx]
    | false =>
      simp only [hqx] at h
      cases hpx : p x with
      | true =>
        refine ⟨a, ?_, Or.inl rfl⟩
        have : q (f x) = false := by rw [hqf]; exact hqx
        simp [updateFirst, hpx, List.find?_cons, this, h]
      | false =>
        obtain ⟨a', ha', hor⟩ := ih h
        exact ⟨a', by simp [updateFirst, hpx, List.find?_cons, hqx, ha'], hor⟩

/-- A user update that keeps every id and owned set preserves both sides of
the invariant. -/
theorem invariant_stable_user_update {users : List User} {items : List Item}
    {p : User → Bool} {f : User → User}
    (hid : ∀ x, (f x).id = x.id) (howned : ∀ x, (f x).owned = x.owned)
    (hOL : OwnerListed users items) (hOB : OwnedBacked users items) :
    OwnerListed (updateFirst p f users) items ∧
    OwnedBacked (updateFirst p f users) items := by
  constructor
  · intro it hit uid huid
    obtain ⟨u, hu, huid', howd⟩ := hOL it hit uid huid
    obtain ⟨y, hy, hyy⟩ := @exists_mem_updateFirst _ p f users u hu
    rcases hyy with rfl | rfl
    · exact ⟨y, hy, huid', howd⟩
    · exact ⟨f u, hy, by rw [hid]; exact huid', by rw [howned]; exact howd⟩
  · intro u' hu' iid hiid
    rcases mem_updateFirst hu' with hu | ⟨a, hfa, rfl⟩
    · exact hOB u' hu iid hiid
    · have ha := List.mem_of_find?_eq_some hfa
      have hiid' : iid ∈ a.owned := by rw [howned] at hiid; exact hiid
      obtain ⟨it, hit, hitid, hown⟩ := hOB a ha iid hiid'
      exact ⟨it, hit, hitid, by rw [hid]; exact hown⟩

/-- Transport of an invariant witness user through the one-position rewrite
`K₁ ++ user :: K₂ ↦ K₁ ++ u₁ :: K₂` when `u₁` keeps the id and at least the
old owned ids. -/
theorem user_transport {users K₁ K₂ : List User} {user u₁ : User}
    (hKdec : users = K₁ ++ user :: K₂) (hid : u₁.id = user.id)
    (hsup : ∀ x ∈ user.owned, x ∈ u₁.owned)
    {u : User} (hu : u ∈ users) :
    ∃ u', u' ∈ K₁ ++ u₁ :: K₂ ∧ u'.id = u.id ∧
      ∀ x ∈ u.owned, x ∈ u'.owned := by
  rcases List.mem_append.1 (hKdec ▸ hu) with h1 | h2
  · exact ⟨u, List.mem_append.2 (Or.inl h1), rfl, fun x hx => hx⟩
  · rcases List.mem_cons.1 h2 with rfl | h3
    · exact ⟨u₁, List.mem_append.2 (Or.inr (List.mem_cons_self _ _)), hid, hsup⟩
    · exact ⟨u, List.mem_append.2 (Or.inr (List.mem_cons_of_mem _ h3)), rfl,
        fun x hx => hx⟩

/-- Assigning an unowned item to a user whose record (besides other field
changes) gets the item appended to its owned set preserves the invariant —
the shared shape of buy, gift and admin gift. -/
theorem invariant_assign {users : List User} {items : List Item}
    {uid iid : String} {user : User} {item : Item} {g : User → User}
    (hOL : OwnerListed users items) (hOB : OwnedBacked users items)
    (huser : users.find? (fun x => x.id == uid) = some user)
    (hitem : items.find? (fun x => x.id == iid) = some item)
    (hunowned : item.ownerId = none)
    (hgid : (g user).id = user.id)
    (hgowned : (g user).owned = user.owned ++ [item.id]) :
    OwnerListed (updateFirst (fun x => x.id == uid) g users)
      (updateFirst (fun x => x.id == iid)
        (fun x => { x with ownerId := some user.id }) items) ∧
    OwnedBacked (updateFirst (fun x => x.id == uid) g users)
      (updateFirst (fun x => x.id == iid)
        (fun x => { x with ownerId := some user.id }) items) := by
  obtain ⟨K₁, K₂, hKdec, hKupd, -, -⟩ := updateFirst_decomp g huser
  obtain ⟨L₁, L₂, hLdec, hLupd, -, -⟩ :=
    updateFirst_decomp (fun x => { x with ownerId := some user.id }) hitem
  have huser_mem : user ∈ users := List.mem_of_find?_eq_some huser
  have hgsup : ∀ x ∈ user.owned, x ∈ (g user).owned := by
    intro x hx; rw [hgowned]; exact List.mem_append.2 (Or.inl hx)
  have hitem_transport : ∀ w : Item, w ∈ items → w.ownerId ≠ none →
      w ∈ L₁ ++ ({ item with ownerId := some user.id } : Item) :: L₂ := by
    intro w hw hwo
    rcases List.mem_append.1 (hLdec ▸ hw) with h1 | h2
    · exact List.mem_append.2 (Or.inl h1)
    · rcases List.mem_cons.1 h2 with rfl | h3
      · exact absurd hunowned hwo
      · exact List.mem_append.2 (Or.inr (List.mem_cons_of_mem _ h3))
  rw [hKupd, hLupd]
  constructor
  · intro it' hit' uid' huid'
    rcases List.mem_append.1 hit' with h1 | h2
    · have hmem : it' ∈ items := hLdec ▸ List.mem_append.2 (Or.inl h1)
      obtain ⟨u, hu, huid'', howd⟩ := hOL it' hmem uid' huid'
      obtain ⟨u', hu', hid', hsup'⟩ := user_transport hKdec hgid hgsup hu
      exact ⟨u', hu', hid'.trans huid'', hsup' _ howd⟩
    · rcases List.mem_cons.1 h2 with rfl | h3
      · have huid'' : user.id = uid' := by
          simpa using huid'
        refine ⟨g user, List.mem_append.2 (Or.inr (List.mem_cons_self _ _)),
          hgid.trans huid'', ?_⟩
        rw [hgowned]
        simp
      · have hmem : it' ∈ items :=
          hLdec ▸ List.mem_append.2 (Or.inr (List.mem_cons_of_mem _ h3))
        obtain ⟨u, hu, huid'', howd⟩ := hOL it' hmem uid' huid'
        obtain ⟨u', hu', hid', hsup'⟩ := user_transport hKdec hgid hgsup hu
        exact ⟨u', hu', hid'.trans huid'', hsup' _ howd⟩
  · intro u' hu' iid' hiid'
    have hwitness_old : ∀ v : User, v ∈ users → iid' ∈ v.owned →
        ∃ w, w ∈ L₁ ++ ({ item with ownerId := some user.id } : Item) :: L₂ ∧
          w.id = iid' ∧ w.ownerId = some v.id := by
      intro v hv hvi
      obtain ⟨w, hw, hwid, hwo⟩ := hOB v hv iid' hvi
      refine ⟨w, hitem_transport w hw ?_, hwid, hwo⟩
      rw [hwo]; exact Option.noConfusion
    rcases List.mem_append.1 hu' with h1 | h2
    · have hmem : u' ∈ users := hKdec ▸ List.mem_append.2 (Or.inl h1)
      exact hwitness_old u' hmem hiid'
    · rcases List.mem_cons.1 h2 with rfl | h3
      · rw [hgowned] at hiid'
        rcases List.mem_append.1 hiid' with hold | hnew
        · obtain ⟨w, hw, hwid, hwo⟩ := hwitness_old user huser_mem hold
          exact ⟨w, hw, hwid, by rw [hgid]; exact hwo⟩
        · have : iid' = item.id := List.mem_singleton.1 hnew
          subst this
          refine ⟨{ item with ownerId := some user.id },
            List.mem_append.2 (Or.inr (List.mem_cons_self _ _)), rfl, ?_⟩
          rw [hgid]
      · have hmem : u' ∈ users :=
          hKdec ▸ List.mem_append.2 (Or.inr (List.mem_cons_of_mem _ h3))
        exact hwitness_old u' hmem hiid'

theorem map_updateFirst {p : α → Bool} {f : α → α} {pr : α → β}
    (hf : ∀ x, pr (f x) = pr x) (l : List α) :
    (updateFirst p f l).map pr = l.map pr := by
  induction l with
  | nil => rfl
  | cons x xs ih =>
    cases hpx : p x with
    | true => simp [updateFirst, hpx, hf]
    | false => simp [updateFirst, hpx, ih]

theorem proj_notin_sides (pr : α → β) {l₁ l₂ : List α} {a : α}
    (hN : ((l₁ ++ a :: l₂).map pr).Nodup) :
    (∀ x ∈ l₁, pr x ≠ pr a) ∧ (∀ x ∈ l₂, pr x ≠ pr a) := by
  rw [List.map_append, List.map_cons] at hN
  obtain ⟨h1, h2, hdisj⟩ := List.nodup_append.1 hN
  constructor
  · intro x hx hxa
    exact hdisj (List.mem_map_of_mem pr hx) (by rw [hxa]; exact List.mem_cons_self _ _)
  · intro x hx hxa
    exact (List.nodup_cons.1 h2).1 (hxa ▸ List.mem_map_of_mem pr hx)

/-- Admin transfer preserves the invariant when user ids and item ids are
pairwise distinct. -/
theorem invariant_transfer {users : List User} {items : List Item}
    {itemId tu : String} {toU : User} {it : Item}
    (hNu : (users.map User.id).Nodup) (hNi : (items.map Item.id).Nodup)
    (hOL : OwnerListed users items) (hOB : OwnedBacked users items)
    (hto : users.find? (fun x => x.id == tu) = some toU)
    (hit : items.find? (fun x => x.id == itemId) = some it) :
    OwnerListed
      (updateFirst (fun x => x.id == tu)
        (fun u => if it.id ∈ u.owned then u
                  else { u with owned := u.owned ++ [it.id] })
        (match it.ownerId with
         | some prevId => updateFirst (fun x => x.id == prevId)
             (fun u => { u with
                owned := u.owned.filter (fun i => !(i == it.id)) }) users
         | none => users))
      (updateFirst (fun x => x.id == itemId)
        (fun x => { x with ownerId := some toU.id }) items) ∧
    OwnedBacked
      (updateFirst (fun x => x.id == tu)
        (fun u => if it.id ∈ u.owned then u
                  else { u with owned := u.owned ++ [it.id] })
        (match it.ownerId with
         | some prevId => updateFirst (fun x => x.id == prevId)
             (fun u => { u with
                owned := u.owned.filter (fun i => !(i == it.id)) }) users
         | none => users))
      (updateFirst (fun x => x.id == itemId)
        (fun x => { x with ownerId := some toU.id }) items) := by
  have hit_mem : it ∈ items := List.mem_of_find?_eq_some hit
  obtain ⟨L₁, L₂, hLdec, hLupd, -, -⟩ :=
    updateFirst_decomp (fun x => { x with ownerId := some toU.id }) hit
  have hLne := proj_notin_sides Item.id (hLdec ▸ hNi)
  have hAddid : ∀ u : User,
      ((if it.id ∈ u.owned then u
        else { u with owned := u.owned ++ [it.id] }) : User).id = u.id := by
    intro u; by_cases h : it.id ∈ u.owned <;> simp [h]
  have hAddsup : ∀ u : User, ∀ x ∈ u.owned,
      x ∈ ((if it.id ∈ u.owned then u
        else { u with owned := u.owned ++ [it.id] }) : User).owned := by
    intro u x hx; by_cases h : it.id ∈ u.owned <;> simp [h, hx]
  have hAddit : ∀ u : User,
      it.id ∈ ((if it.id ∈ u.owned then u
        else { u with owned := u.owned ++ [it.id] }) : User).owned := by
    intro u; by_cases h : it.id ∈ u.owned <;> simp [h]
  have hsurv : ∀ w : Item, w ∈ items → w.id ≠ it.id →
      w ∈ L₁ ++ ({ it with ownerId := some toU.id } : Item) :: L₂ := by
    intro w hw hne
    rcases List.mem_append.1 (hLdec ▸ hw) with h1 | h2
    · exact List.mem_append.2 (Or.inl h1)
    · rcases List.mem_cons.1 h2 with rfl | h3
      · exact absurd rfl hne
      · exact List.mem_append.2 (Or.inr (List.mem_cons_of_mem _ h3))
  have hw_ne_it : ∀ (v : User) (w : Item), w ∈ items →
      w.ownerId = some v.id → it.ownerId ≠ some v.id → w.id ≠ it.id := by
    intro v w hw hwo hne heq
    exact hne (List.inj_on_of_nodup_map hNi hw hit_mem heq ▸ hwo)
  rw [hLupd]
  cases howner : it.ownerId with
  | none =>
    obtain ⟨M₁, M₂, hMdec, hMupd, -, -⟩ :=
      updateFirst_decomp
        (fun u : User => if it.id ∈ u.owned then u
                  else { u with owned := u.owned ++ [it.id] }) hto
    rw [hMupd]
    constructor
    · intro x hx uid huid
      rcases List.mem_append.1 hx with h1 | h2
      · have hmem : x ∈ items := hLdec ▸ List.mem_append.2 (Or.inl h1)
        obtain ⟨u, hu, huid', howd⟩ := hOL x hmem uid huid
        obtain ⟨u', hu', hid', hsup'⟩ :=
          user_transport hMdec (hAddid toU) (hAddsup toU) hu
        exact ⟨u', hu', hid'.trans huid', hsup' _ howd⟩
      · rcases List.mem_cons.1 h2 with rfl | h3
        · have huid' : toU.id = uid := by simpa using huid
          exact ⟨_, List.mem_append.2 (Or.inr (List.mem_cons_self _ _)),
            (hAddid toU).trans huid', hAddit toU⟩
        · have hmem : x ∈ items :=
            hLdec ▸ List.mem_append.2 (Or.inr (List.mem_cons_of_mem _ h3))
          obtain ⟨u, hu, huid', howd⟩ := hOL x hmem uid huid
          obtain ⟨u', hu', hid', hsup'⟩ :=
            user_transport hMdec (hAddid toU) (hAddsup toU) hu
          exact ⟨u', hu', hid'.trans huid', hsup' _ howd⟩
    · intro u' hu' iid hiid
      have hwit : ∀ v : User, v ∈ users → iid ∈ v.owned → iid ≠ it.id →
          ∃ w, w ∈ L₁ ++ ({ it with ownerId := some toU.id } : Item) :: L₂ ∧
            w.id = iid ∧ w.ownerId = some v.id := by
        intro v hv hvi hne
        obtain ⟨w, hw, hwid, hwo⟩ := hOB v hv iid hvi
        exact ⟨w, hsurv w hw (hwid ▸ hne), hwid, hwo⟩
      by_cases hiidit : iid = it.id
      · subst hiidit
        refine ⟨{ it with ownerId := some toU.id },
          List.mem_append.2 (Or.inr (List.mem_cons_self _ _)), rfl, ?_⟩
        rcases List.mem_append.1 hu' with h1 | h2
        · -- an untouched user listing it.id: its witness is an item with
          -- it.id; by id-nodup that item is `it`, whose owner is none — absurd
          have hmem : u' ∈ users := hMdec ▸ List.mem_append.2 (Or.inl h1)
          obtain ⟨w, hw, hwid, hwo⟩ := hOB u' hmem it.id hiid
          have : w = it := List.inj_on_of_nodup_map hNi hw hit_mem hwid
          rw [this, howner] at hwo
          cases hwo
        · rcases List.mem_cons.1 h2 with rfl | h3
          · simp [hAddid toU]
          · have hmem : u' ∈ users :=
              hMdec ▸ List.mem_append.2 (Or.inr (List.mem_cons_of_mem _ h3))
            obtain ⟨w, hw, hwid, hwo⟩ := hOB u' hmem it.id hiid
            have : w = it := List.inj_on_of_nodup_map hNi hw hit_mem hwid
            rw [this, howner] at hwo
            cases hwo
      · rcases List.mem_append.1 hu' with h1 | h2
        · exact hwit u' (hMdec ▸ List.mem_append.2 (Or.inl h1)) hiid hiidit
        · rcases List.mem_cons.1 h2 with rfl | h3
          · have hiid' : iid ∈ toU.owned := by
              by_cases h : it.id ∈ toU.owned
              · simpa [h] using hiid
              · rcases (by simpa [h] using hiid :
                  iid ∈ toU.owned ∨ iid = it.id) with ho | hn
                · exact ho
                · exact absurd hn hiidit
            obtain ⟨w, hw, hwid, hwo⟩ :=
              hwit toU (List.mem_of_find?_eq_some hto) hiid' hiidit
            exact ⟨w, hw, hwid, by rw [hAddid toU]; exact hwo⟩
          · exact hwit u'
              (hMdec ▸ List.mem_append.2 (Or.inr (List.mem_cons_of_mem _ h3)))
              hiid hiidit
  | some prevId =>
    obtain ⟨prevU, hprevU, hprevid, hprevowd⟩ := hOL it hit_mem prevId howner
    have hfp : users.find? (fun x => x.id == prevId) = some prevU := by
      cases hfp0 : users.find? (fun x => x.id == prevId) with
      | none =>
        exact absurd (by simpa using (List.find?_eq_none.1 hfp0) prevU hprevU)
          (by simp [hprevid])
      | some p₀ =>
        have hp₀ : p₀ ∈ users := List.mem_of_find?_eq_some hfp0
        have hp₀id : p₀.id = prevId := by
          simpa using List.find?_some hfp0
        have : p₀ = prevU :=
          List.inj_on_of_nodup_map hNu hp₀ hprevU (hp₀id.trans hprevid.symm)
        rw [this]
    obtain ⟨K₁, K₂, hKdec, hKupd, -, -⟩ :=
      updateFirst_decomp
        (fun u : User =>
          { u with owned := u.owned.filter (fun i => !(i == it.id)) })
        hfp
    have hKne := proj_notin_sides User.id (hKdec ▸ hNu)
    obtain ⟨t₁, hft₁, ht₁or⟩ :=
      @find?_updateFirst_stable User (fun x => x.id == prevId)
        (fun x => x.id == tu)
        (fun u : User =>
          { u with owned := u.owned.filter (fun i => !(i == it.id)) })
        users toU hto (fun x => rfl)
    have ht₁id : t₁.id = toU.id := by rcases ht₁or with rfl | rfl <;> rfl
    have ht₁sub : ∀ x ∈ t₁.owned, x ∈ toU.owned := by
      rcases ht₁or with rfl | rfl
      · exact fun x hx => hx
      · exact fun x hx => (List.mem_filter.1 hx).1
    obtain ⟨N₁, N₂, hNdec, hNupd, -, -⟩ :=
      updateFirst_decomp
        (fun u : User => if it.id ∈ u.owned then u
                  else { u with owned := u.owned ++ [it.id] }) hft₁
    rw [hNupd]
    -- transport an owned id through the prev-owner removal
    have transport1 : ∀ u : User, u ∈ users → ∀ xid ∈ u.owned, xid ≠ it.id →
        ∃ u₁, u₁ ∈ K₁ ++ ({ prevU with owned := prevU.owned.filter (fun i => !(i == it.id)) } : User) :: K₂ ∧
          u₁.id = u.id ∧ xid ∈ u₁.owned := by
      intro u hu xid hxid hne
      rcases List.mem_append.1 (hKdec ▸ hu) with h1 | h2
      · exact ⟨u, List.mem_append.2 (Or.inl h1), rfl, hxid⟩
      · rcases List.mem_cons.1 h2 with rfl | h3
        · refine ⟨_, List.mem_append.2 (Or.inr (List.mem_cons_self _ _)),
            rfl, ?_⟩
          simp only [List.mem_filter, Bool.not_eq_eq_eq_not, Bool.not_true]
          exact ⟨hxid, by simpa using hne⟩
        · exact ⟨u, List.mem_append.2 (Or.inr (List.mem_cons_of_mem _ h3)),
            rfl, hxid⟩
    -- membership in users1 splits into untouched users and the filtered owner
    have husers1 : ∀ u₁ : User, u₁ ∈ K₁ ++ ({ prevU with owned := prevU.owned.filter (fun i => !(i == it.id)) } : User) :: K₂ →
        (u₁ ∈ users ∧ u₁.id ≠ prevU.id) ∨
        u₁ = ({ prevU with owned := prevU.owned.filter (fun i => !(i == it.id)) } : User) := by
      intro u₁ hu₁
      rcases List.mem_append.1 hu₁ with h1 | h2
      · exact Or.inl ⟨hKdec ▸ List.mem_append.2 (Or.inl h1), hKne.1 u₁ h1⟩
      · rcases List.mem_cons.1 h2 with rfl | h3
        · exact Or.inr rfl
        · exact Or.inl ⟨hKdec ▸ List.mem_append.2
            (Or.inr (List.mem_cons_of_mem _ h3)), hKne.2 u₁ h3⟩
    constructor
    · intro x hx uid huid
      rcases List.mem_append.1 hx with h1 | h2
      · have hxne : x.id ≠ it.id := hLne.1 x h1
        have hmem : x ∈ items := hLdec ▸ List.mem_append.2 (Or.inl h1)
        obtain ⟨u, hu, huid', howd⟩ := hOL x hmem uid huid
        obtain ⟨u₁, hu₁, hid₁, hx₁⟩ :=
          transport1 u hu x.id howd (hxne)
        obtain ⟨u', hu', hid', hsup'⟩ :=
          user_transport (hKupd ▸ hNdec) (hAddid t₁) (hAddsup t₁) hu₁
        exact ⟨u', hu', hid'.trans (hid₁.trans huid'), hsup' _ hx₁⟩
      · rcases List.mem_cons.1 h2 with rfl | h3
        · have huid' : toU.id = uid := by simpa using huid
          exact ⟨_, List.mem_append.2 (Or.inr (List.mem_cons_self _ _)),
            (hAddid t₁).trans (ht₁id.trans huid'), hAddit t₁⟩
        · have hxne : x.id ≠ it.id := hLne.2 x h3
          have hmem : x ∈ items :=
            hLdec ▸ List.mem_append.2 (Or.inr (List.mem_cons_of_mem _ h3))
          obtain ⟨u, hu, huid', howd⟩ := hOL x hmem uid huid
          obtain ⟨u₁, hu₁, hid₁, hx₁⟩ := transport1 u hu x.id howd hxne
          obtain ⟨u', hu', hid', hsup'⟩ :=
            user_transport (hKupd ▸ hNdec) (hAddid t₁) (hAddsup t₁) hu₁
          exact ⟨u', hu', hid'.trans (hid₁.trans huid'), hsup' _ hx₁⟩
    · intro u' hu' iid hiid
      by_cases hiidit : iid = it.id
      · subst hiidit
        refine ⟨{ it with ownerId := some toU.id },
          List.mem_append.2 (Or.inr (List.mem_cons_self _ _)), rfl, ?_⟩
        rcases List.mem_append.1 hu' with h1 | h2
        · -- untouched by the add step; may still be in users or the filtered owner
          rcases husers1 u' (by rw [← hKupd, hNdec]; exact List.mem_append.2 (Or.inl h1)) with
            ⟨humem, hune⟩ | rfl
          · obtain ⟨w, hw, hwid, hwo⟩ := hOB u' humem it.id hiid
            have hweq : w = it := List.inj_on_of_nodup_map hNi hw hit_mem hwid
            rw [hweq, howner] at hwo
            have hpe : prevId = u'.id := by injection hwo
            exact absurd (hprevid.trans hpe).symm hune
          · -- the filtered owner cannot list it.id any more
            exact absurd hiid (by simp)
        · rcases List.mem_cons.1 h2 with rfl | h3
          · exact congrArg some ((hAddid t₁).trans ht₁id).symm
          · rcases husers1 u'
              (by rw [← hKupd, hNdec]
                  exact List.mem_append.2 (Or.inr (List.mem_cons_of_mem _ h3)))
              with ⟨humem, hune⟩ | rfl
            · obtain ⟨w, hw, hwid, hwo⟩ := hOB u' humem it.id hiid
              have hweq : w = it := List.inj_on_of_nodup_map hNi hw hit_mem hwid
              rw [hweq, howner] at hwo
              have hpe : prevId = u'.id := by injection hwo
              exact absurd (hprevid.trans hpe).symm hune
            · exact absurd hiid (by simp)
      · -- iid is an old ownership: its witness item survives the update
        have hwit : ∀ v : User, v ∈ users → iid ∈ v.owned →
            ∃ w, w ∈ L₁ ++ ({ it with ownerId := some toU.id } : Item) :: L₂ ∧
              w.id = iid ∧ w.ownerId = some v.id := by
          intro v hv hvi
          obtain ⟨w, hw, hwid, hwo⟩ := hOB v hv iid hvi
          exact ⟨w, hsurv w hw (hwid ▸ hiidit), hwid, hwo⟩
        rcases List.mem_append.1 hu' with h1 | h2
        · rcases husers1 u' (by rw [← hKupd, hNdec]; exact List.mem_append.2 (Or.inl h1)) with
            ⟨humem, -⟩ | rfl
          · exact hwit u' humem hiid
          · have hiid' : iid ∈ prevU.owned := (List.mem_filter.1 hiid).1
            obtain ⟨w, hw, hwid, hwo⟩ := hwit prevU hprevU hiid'
            exact ⟨w, hw, hwid, hwo⟩
        · rcases List.mem_cons.1 h2 with rfl | h3
          · have hiid' : iid ∈ t₁.owned := by
              by_cases h : it.id ∈ t₁.owned
              · simpa [h] using hiid
              · rcases (by simpa [h] using hiid :
                  iid ∈ t₁.owned ∨ iid = it.id) with ho | hn
                · exact ho
                · exact absurd hn hiidit
            have hiidtoU : iid ∈ toU.owned := ht₁sub iid hiid'
            obtain ⟨w, hw, hwid, hwo⟩ :=
              hwit toU (List.mem_of_find?_eq_some hto) hiidtoU
            refine ⟨w, hw, hwid, ?_⟩
            rw [hAddid t₁, ht₁id]
            exact hwo
          · rcases husers1 u'
              (by rw [← hKupd, hNdec]
                  exact List.mem_append.2 (Or.inr (List.mem_cons_of_mem _ h3)))
              with ⟨humem, -⟩ | rfl
            · exact hwit u' humem hiid
            · have hiid' : iid ∈ prevU.owned := (List.mem_filter.1 hiid).1
              obtain ⟨w, hw, hwid, hwo⟩ := hwit prevU hprevU hiid'
              exact ⟨w, hw, hwid, hwo⟩

/-- Admin burn preserves the invariant when user ids and item ids are
pairwise distinct. -/
theorem invariant_burn {users : List User} {items : List Item}
    {itemId : String} {it : Item}
    (hNu : (users.map User.id).Nodup) (hNi : (items.map Item.id).Nodup)
    (hOL : OwnerListed users items) (hOB : OwnedBacked users items)
    (hit : items.find? (fun x => x.id == itemId) = some it) :
    OwnerListed
      (match it.ownerId with
       | some ownerId => updateFirst (fun u => u.id == ownerId)
           (fun u => { u with
              owned := u.owned.filter (fun i => !(i == it.id)) }) users
       | none => users)
      (items.filter (fun x => !(x.id == it.id))) ∧
    OwnedBacked
      (match it.ownerId with
       | some ownerId => updateFirst (fun u => u.id == ownerId)
           (fun u => { u with
              owned := u.owned.filter (fun i => !(i == it.id)) }) users
       | none => users)
      (items.filter (fun x => !(x.id == it.id))) := by
  have hit_mem : it ∈ items := List.mem_of_find?_eq_some hit
  have hfil : ∀ w : Item,
      w ∈ items.filter (fun x => !(x.id == it.id)) ↔
        (w ∈ items ∧ w.id ≠ it.id) := by
    intro w
    simp [List.mem_filter]
  cases howner : it.ownerId with
  | none =>
    constructor
    · intro x hx uid huid
      exact hOL x ((hfil x).1 hx).1 uid huid
    · intro u hu iid hiid
      obtain ⟨w, hw, hwid, hwo⟩ := hOB u hu iid hiid
      have hwne : w.id ≠ it.id := by
        intro heq
        have : w = it := List.inj_on_of_nodup_map hNi hw hit_mem heq
        rw [this, howner] at hwo
        cases hwo
      exact ⟨w, (hfil w).2 ⟨hw, hwne⟩, hwid, hwo⟩
  | some ownerId₀ =>
    obtain ⟨prevU, hprevU, hprevid, hprevowd⟩ := hOL it hit_mem ownerId₀ howner
    have hfp : users.find? (fun x => x.id == ownerId₀) = some prevU := by
      cases hfp0 : users.find? (fun x => x.id == ownerId₀) with
      | none =>
        exact absurd (by simpa using (List.find?_eq_none.1 hfp0) prevU hprevU)
          (by simp [hprevid])
      | some p₀ =>
        have hp₀ : p₀ ∈ users := List.mem_of_find?_eq_some hfp0
        have hp₀id : p₀.id = ownerId₀ := by simpa using List.find?_some hfp0
        have : p₀ = prevU :=
          List.inj_on_of_nodup_map hNu hp₀ hprevU (hp₀id.trans hprevid.symm)
        rw [this]
    obtain ⟨K₁, K₂, hKdec, hKupd, -, -⟩ :=
      updateFirst_decomp
        (fun u : User =>
          { u with owned := u.owned.filter (fun i => !(i == it.id)) })
        hfp
    have hKne := proj_notin_sides User.id (hKdec ▸ hNu)
    simp only []
    rw [hKupd]
    have husers1 : ∀ u₁ : User, u₁ ∈ K₁ ++ ({ prevU with owned := prevU.owned.filter (fun i => !(i == it.id)) } : User) :: K₂ →
        (u₁ ∈ users ∧ u₁.id ≠ prevU.id) ∨
        u₁ = ({ prevU with owned := prevU.owned.filter (fun i => !(i == it.id)) } : User) := by
      intro u₁ hu₁
      rcases List.mem_append.1 hu₁ with h1 | h2
      · exact Or.inl ⟨hKdec ▸ List.mem_append.2 (Or.inl h1), hKne.1 u₁ h1⟩
      · rcases List.mem_cons.1 h2 with rfl | h3
        · exact Or.inr rfl
        · exact Or.inl ⟨hKdec ▸ List.mem_append.2
            (Or.inr (List.mem_cons_of_mem _ h3)), hKne.2 u₁ h3⟩
    constructor
    · intro x hx uid huid
      obtain ⟨hxmem, hxne⟩ := (hfil x).1 hx
      obtain ⟨u, hu, huid', howd⟩ := hOL x hxmem uid huid
      rcases List.mem_append.1 (hKdec ▸ hu) with h1 | h2
      · exact ⟨u, List.mem_append.2 (Or.inl h1), huid', howd⟩
      · rcases List.mem_cons.1 h2 with rfl | h3
        · refine ⟨_, List.mem_append.2 (Or.inr (List.mem_cons_self _ _)),
            huid', ?_⟩
          simp only [List.mem_filter, Bool.not_eq_eq_eq_not, Bool.not_true]
          exact ⟨howd, by simpa using hxne⟩
        · exact ⟨u, List.mem_append.2 (Or.inr (List.mem_cons_of_mem _ h3)),
            huid', howd⟩
    · intro u' hu' iid hiid
      rcases husers1 u' hu' with ⟨humem, hune⟩ | rfl
      · obtain ⟨w, hw, hwid, hwo⟩ := hOB u' humem iid hiid
        have hwne : w.id ≠ it.id := by
          intro heq
          have hweq : w = it := List.inj_on_of_nodup_map hNi hw hit_mem heq
          rw [hweq, howner] at hwo
          have : ownerId₀ = u'.id := by injection hwo
          exact hune ((hprevid.trans this).symm)
        exact ⟨w, (hfil w).2 ⟨hw, hwne⟩, hwid, hwo⟩
      · have hiid' : iid ∈ prevU.owned := (List.mem_filter.1 hiid).1
        have hiidne : iid ≠ it.id := by
          have := (List.mem_filter.1 hiid).2
          simpa using this
        obtain ⟨w, hw, hwid, hwo⟩ := hOB prevU hprevU iid hiid'
        exact ⟨w, (hfil w).2 ⟨hw, hwid ▸ hiidne⟩, hwid, hwo⟩

/-! ### Claim theorems -/

/-- C1: for every user with balance `B` and withdrawal amount `0 < A ≤ B`, the
withdrawal request leaves the balance at `B − A` and creates a `pending`
withdraw record; a subsequent reject restores balance `B` and marks the record
`rejected`; a subsequent approve keeps balance `B − A` and marks it `approved`.
A deposit request of `A > 0` leaves the users (hence the balance) unchanged;
the balance grows by exactly `A` on approval of the deposit and the users stay
unchanged on its rejection. -/
theorem C1_hold_refund_correctness
    (db : DB) (c : String) (u : User) (A : ℚ)
    (addr pid nid nid2 adm note : String) (t t2 : Nat)
    (hu : findUser db c = some u)
    (hA0 : 0 < A) (hAB : A ≤ u.balance)
    (haddr : 5 ≤ addr.length)
    (hfresh : ∀ q ∈ db.payments, (q.id == pid) = false)
    (hpid : pid ≠ "") :
    (∃ db1,
      withdrawRequest c A addr pid nid t db = .ok db1 ∧
      (findUser db1 c).map User.balance = some (u.balance - A) ∧
      (∃ pay, findPayment db1 pid = some pay ∧ pay.status = "pending" ∧
        pay.kind = "withdraw" ∧ pay.amountTon = A ∧ pay.userId = c) ∧
      (∃ db2, reject adm pid note nid2 t2 db1 = .ok db2 ∧
        (findUser db2 c).map User.balance = some u.balance ∧
        (findPayment db2 pid).map Payment.status = some "rejected") ∧
      (∃ db3, approve adm pid nid2 t2 db1 = .ok db3 ∧
        (findUser db3 c).map User.balance = some (u.balance - A) ∧
        (findPayment db3 pid).map Payment.status = some "approved")) ∧
    (∃ db4,
      depositRequest c A pid nid t db = .ok db4 ∧
      db4.users = db.users ∧
      (∃ pay, findPayment db4 pid = some pay ∧ pay.status = "pending" ∧
        pay.kind = "deposit" ∧ pay.amountTon = A) ∧
      (∃ db5, approve adm pid nid2 t2 db4 = .ok db5 ∧
        (findUser db5 c).map User.balance = some (u.balance + A) ∧
        (findPayment db5 pid).map Payment.status = some "approved") ∧
      (∃ db6, reject adm pid note nid2 t2 db4 = .ok db6 ∧
        db6.users = db.users ∧
        (findPayment db6 pid).map Payment.status = some "rejected")) := by
  have hu' : db.users.find? (fun x => x.id == c) = some u := hu
  have hid : (u.id == c) = true := by simpa using List.find?_some hu'
  have hW : ((⟨pid, c, "withdraw", A, toFixed2 (A * TON_USD), some addr,
      "pending", t, none, none⟩ : Payment).id == pid) = true := by simp
  have hD : ((⟨pid, c, "deposit", A, toFixed2 (A * TON_USD), none,
      "pending", t, none, none⟩ : Payment).id == pid) = true := by simp
  have hfu1 :
      (updateFirst (fun x => x.id == c)
        (fun x => { x with balance := x.balance - A }) db.users).find?
          (fun x => x.id == c) =
        some { u with balance := u.balance - A } :=
    find?_updateFirst_self hu' hid
  have hfp1 :
      (db.payments ++ [(⟨pid, c, "withdraw", A, toFixed2 (A * TON_USD), some addr,
          "pending", t, none, none⟩ : Payment)]).find?
          (fun x : Payment => x.id == pid) =
        some (⟨pid, c, "withdraw", A, toFixed2 (A * TON_USD), some addr,
          "pending", t, none, none⟩ : Payment) :=
    find?_append_last hfresh hW
  have hfp4 :
      (db.payments ++ [(⟨pid, c, "deposit", A, toFixed2 (A * TON_USD), none,
          "pending", t, none, none⟩ : Payment)]).find?
          (fun x : Payment => x.id == pid) =
        some (⟨pid, c, "deposit", A, toFixed2 (A * TON_USD), none,
          "pending", t, none, none⟩ : Payment) :=
    find?_append_last hfresh hD
  constructor
  · refine ⟨_, withdrawRequest_ok_spec hu' hA0 hAB haddr, ?_, ?_, ?_, ?_⟩
    · show ((updateFirst (fun x => x.id == c)
          (fun x => { x with balance := x.balance - A }) db.users).find?
            (fun x => x.id == c)).map User.balance = _
      rw [hfu1]; rfl
    · exact ⟨_, hfp1, rfl, rfl, rfl, rfl⟩
    · refine ⟨_, reject_ok_withdraw_spec hpid hfp1 rfl rfl hfu1, ?_, ?_⟩
      · show ((updateFirst (fun x => x.id == c)
            (fun x => { x with balance := x.balance + A })
            (updateFirst (fun x => x.id == c)
              (fun x => { x with balance := x.balance - A }) db.users)).find?
              (fun x => x.id == c)).map User.balance = _
        rw [find?_updateFirst_self hfu1 hid]
        have : u.balance - A + A = u.balance := by ring
        simp [this]
      · show ((updateFirst (fun x => x.id == pid) _ _).find?
            (fun x => x.id == pid)).map Payment.status = _
        rw [find?_updateFirst_self hfp1 hW]; rfl
    · refine ⟨_, approve_ok_withdraw_spec hpid hfp1 rfl rfl hfu1, ?_, ?_⟩
      · show ((updateFirst (fun x => x.id == c)
            (fun x => { x with balance := x.balance - A }) db.users).find?
              (fun x => x.id == c)).map User.balance = _
        rw [hfu1]; rfl
      · show ((updateFirst (fun x => x.id == pid) _ _).find?
            (fun x => x.id == pid)).map Payment.status = _
        rw [find?_updateFirst_self hfp1 hW]; rfl
  · refine ⟨_, depositRequest_ok_spec hA0, rfl, ?_, ?_, ?_⟩
    · exact ⟨_, hfp4, rfl, rfl, rfl⟩
    · refine ⟨_, approve_ok_deposit_spec hpid hfp4 rfl rfl hu', ?_, ?_⟩
      · show ((updateFirst (fun x => x.id == c)
            (fun x => { x with balance := x.balance + A }) db.users).find?
              (fun x => x.id == c)).map User.balance = _
        rw [find?_updateFirst_self hu' hid]; rfl
      · show ((updateFirst (fun x => x.id == pid) _ _).find?
            (fun x => x.id == pid)).map Payment.status = _
        rw [find?_updateFirst_self hfp4 hD]; rfl
    · refine ⟨_, reject_ok_deposit_spec hpid hfp4 rfl rfl hu', rfl, ?_⟩
      show ((updateFirst (fun x => x.id == pid) _ _).find?
          (fun x => x.id == pid)).map Payment.status = _
      rw [find?_updateFirst_self hfp4 hD]; rfl

/-- A seed user for concrete witnesses. -/
def uW : User := ⟨"u1", "Alice", "alice@example.com", "h", "user", 10, [], 0, false⟩

/-- A seed snapshot for concrete witnesses. -/
def dbW : DB := ⟨[uW], [], [], [], []⟩

/-- Witness for C1: the scenario of §8 of the spec, at balance 10 and a
withdrawal of 10. -/
theorem C1_hold_refund_correctness_witness :
    ∃ db1, withdrawRequest "u1" 10 "addr12345" "p1" "n1" 0 dbW = .ok db1 ∧
      (findUser db1 "u1").map User.balance = some (10 - 10) := by
  obtain ⟨⟨db1, h1, h2, -⟩, -⟩ :=
    C1_hold_refund_correctness dbW "u1" uW 10 "addr12345" "p1" "n1" "n2" "adm"
      "" 0 1 rfl (by norm_num) (by norm_num [uW]) (by decide) (by simp [dbW])
      (by decide)
  exact ⟨db1, h1, h2⟩

/-- C2: every rejection path (validation, conflict, not-found, authorization)
of every modelled ledger operation leaves the persisted snapshot exactly equal
to the pre-submission snapshot: no user, item, payment, history entry or
notification changes. -/
theorem C2_rejections_leave_snapshot_unchanged (op : Op) (db : DB)
    (s : Nat) (m : String) (db' : DB) (h : runOp op db = .err s m db') :
    db' = db := by
  cases op with
  | depositRequest c a p n t => exact depositRequest_err h
  | withdrawRequest c a addr p n t => exact withdrawRequest_err h
  | approve adm p n t => exact approve_err h
  | reject adm p note n t => exact reject_err h
  | pay c i mo u t => exact pay_err h
  | upgrade c i t => exact upgrade_err h
  | adminGift u i t => exact adminGift_err h
  | adminUsersBalance u d t => exact adminUsersBalance_err h
  | adminUsersBan u b => exact adminUsersBan_err h
  | itemsCreate n p im c r t => exact itemsCreate_err h
  | itemsUpdate i fs => exact itemsUpdate_err h
  | itemsDelete i => exact itemsDelete_err h
  | itemsClear => exact itemsClear_err h
  | bulkImport rows t => exact bulkImport_err h
  | transfer i u t => exact transfer_err h
  | burn i t => exact burn_err h

/-- Witness for C2: deleting an absent item is rejected with 404 and the
snapshot is unchanged. -/
theorem C2_rejections_leave_snapshot_unchanged_witness :
    runOp (Op.itemsDelete "ghost") dbW = .err 404 "Item not found" dbW ∧
      dbW = dbW :=
  ⟨rfl, C2_rejections_leave_snapshot_unchanged (Op.itemsDelete "ghost") dbW 404
    "Item not found" dbW rfl⟩

/-- C3: approving or rejecting a payment already in a terminal state
(`approved` or `rejected`) is refused with the "Already processed" error
(HTTP 400 in the code) and the snapshot — payment, balances, everything — is
returned unchanged, hence every later attempt fails the same way. -/
theorem C3_terminal_payments_immutable (db : DB) (adm pid note nid : String)
    (t : Nat) (p : Payment)
    (hpid : pid ≠ "")
    (hp : findPayment db pid = some p)
    (hterm : p.status = "approved" ∨ p.status = "rejected") :
    approve adm pid nid t db = .err 400 "Already processed" db ∧
    reject adm pid note nid t db = .err 400 "Already processed" db := by
  have hne : p.status ≠ "pending" := by
    rcases hterm with h | h <;> simp [h]
  constructor
  · unfold approve
    rw [if_neg hpid]
    simp only [hp]
    rw [if_pos hne]
  · unfold reject
    rw [if_neg hpid]
    simp only [hp]
    rw [if_pos hne]

/-- A terminally approved payment, for the C3 witness. -/
def pC3 : Payment :=
  ⟨"p1", "u1", "withdraw", 10, 35, some "addr12345", "approved", 0, some "adm", none⟩

/-- Snapshot holding `pC3`, for the C3 witness. -/
def dbC3 : DB := ⟨[uW], [], [pC3], [], []⟩

/-- Witness for C3: re-approving or rejecting an approved payment fails with
"Already processed" and no state change. -/
theorem C3_terminal_payments_immutable_witness :
    approve "adm" "p1" "n" 1 dbC3 = .err 400 "Already processed" dbC3 ∧
    reject "adm" "p1" "note" "n" 1 dbC3 = .err 400 "Already processed" dbC3 :=
  C3_terminal_payments_immutable dbC3 "adm" "p1" "note" "n" 1 pC3 (by decide)
    rfl (Or.inl rfl)

/-- C4: buying an unowned item with sufficient balance debits the buyer by the
item's stored price, sets the item's owner to the buyer, appends the item id to
the buyer's owned set, and writes exactly one history entry (payments are
untouched); with insufficient balance the buy fails with the
"Insufficient balance" validation error and the snapshot is unchanged. -/
theorem C4_buy_correctness (db : DB) (c itemId tu : String) (t : Nat)
    (buyer : User) (item : Item)
    (hiid : itemId ≠ "")
    (hbuyer : findUser db c = some buyer)
    (hitem : findItem db itemId = some item)
    (hunowned : item.ownerId = none) :
    (item.price ≤ buyer.balance →
      ∃ db1, pay c itemId "buy" tu t db = .ok db1 ∧
        findUser db1 c = some { buyer with
          balance := buyer.balance - item.price,
          owned := buyer.owned ++ [item.id] } ∧
        (findItem db1 itemId).map Item.ownerId = some (some buyer.id) ∧
        buyer.id = c ∧
        db1.history = db.history ++
          [⟨buyer.id, "Bought " ++ item.id ++ " for " ++ toString item.price
              ++ " TON", t⟩] ∧
        db1.payments = db.payments) ∧
    (buyer.balance < item.price →
      pay c itemId "buy" tu t db = .err 400 "Insufficient balance" db) := by
  have hbuyer' : db.users.find? (fun x => x.id == c) = some buyer := hbuyer
  have hitem' : db.items.find? (fun x => x.id == itemId) = some item := hitem
  have hidb : (buyer.id == c) = true := by simpa using List.find?_some hbuyer'
  have hidi : (item.id == itemId) = true := by simpa using List.find?_some hitem'
  constructor
  · intro hle
    refine ⟨_, pay_buy_ok_spec hiid hbuyer' hitem' hunowned (not_lt.2 hle),
      ?_, ?_, eq_of_beq hidb, rfl, rfl⟩
    · show ((updateFirst (fun x => x.id == c) _ db.users).find?
          (fun x => x.id == c)) = _
      rw [find?_updateFirst_self hbuyer' hidb]
    · show ((updateFirst (fun x => x.id == itemId) _ db.items).find?
          (fun x => x.id == itemId)).map Item.ownerId = _
      rw [find?_updateFirst_self hitem' hidi]; rfl
  · intro hlt
    unfold pay
    rw [if_neg (by simp [hiid])]
    simp only [findItem, hitem', findUser, hbuyer', hunowned,
      Option.isSome_none, Bool.false_eq_true, if_false, reduceIte,
      String.reduceEq]
    rw [if_pos hlt]

/-- An unowned item priced at 5, for concrete witnesses. -/
def itW : Item := ⟨"i1", "Cap", 5, 5, "img", "Default", 3, 0, none, 0⟩

/-- A snapshot with one user (balance 10) and one unowned item (price 5). -/
def dbC4 : DB := ⟨[uW], [itW], [], [], []⟩

/-- Witness for C4: the concrete buy succeeds and transfers ownership. -/
theorem C4_buy_correctness_witness :
    ∃ db1, pay "u1" "i1" "buy" "" 0 dbC4 = .ok db1 ∧
      (findItem db1 "i1").map Item.ownerId = some (some "u1") := by
  obtain ⟨hpos, -⟩ := C4_buy_correctness dbC4 "u1" "i1" "" 0 uW itW
    (by decide) rfl rfl rfl
  obtain ⟨db1, h1, -, h3, -⟩ := hpos (by norm_num [uW, itW])
  exact ⟨db1, h1, h3⟩

/-- C6 counterexample: a successful admin gift writes exactly ONE history
entry, not the two (one per side) that the self-funded gift writes and that
the claim asserts. -/
theorem C6_counterexample_single_history_entry :
    (adminGift "u1" "i1" 0 dbC4).isOk = true ∧
    (adminGift "u1" "i1" 0 dbC4).db.history.length = 1 ∧
    (adminGift "u1" "i1" 0 dbC4).db.history.length ≠ 2 := by
  refine ⟨rfl, rfl, by decide⟩

/-- C6 (amended): an admin gift of an unowned item to a recipient whose
balance covers the stored price debits the *recipient* by the price, sets the
item's owner to the recipient, appends the item to the recipient's owned set,
increments the recipient's gift counter — but writes exactly ONE history entry
(the recipient-side entry), unlike the self-funded gift's two. -/
theorem C6_admin_gift_amended (db : DB) (tu itemId : String) (t : Nat)
    (user : User) (item : Item)
    (htu : tu ≠ "") (hiid : itemId ≠ "")
    (huser : findUser db tu = some user)
    (hitem : findItem db itemId = some item)
    (hunowned : item.ownerId = none)
    (hbal : item.price ≤ user.balance) :
    ∃ db1, adminGift tu itemId t db = .ok db1 ∧
      findUser db1 tu = some { user with
        balance := user.balance - item.price,
        owned := user.owned ++ [item.id],
        gifts := user.gifts + 1 } ∧
      (findItem db1 itemId).map Item.ownerId = some (some user.id) ∧
      db1.history = db.history ++
        [⟨user.id, "Admin issued gift " ++ item.id ++ " (charged "
            ++ toString item.price ++ " TON)", t⟩] := by
  have huser' : db.users.find? (fun x => x.id == tu) = some user := huser
  have hitem' : db.items.find? (fun x => x.id == itemId) = some item := hitem
  have hidu : (user.id == tu) = true := by simpa using List.find?_some huser'
  have hidi : (item.id == itemId) = true := by simpa using List.find?_some hitem'
  refine ⟨_, adminGift_ok_spec htu hiid huser' hitem' hunowned (not_lt.2 hbal),
    ?_, ?_, rfl⟩
  · show ((updateFirst (fun x => x.id == tu) _ db.users).find?
        (fun x => x.id == tu)) = _
    rw [find?_updateFirst_self huser' hidu]
  · show ((updateFirst (fun x => x.id == itemId) _ db.items).find?
        (fun x => x.id == itemId)).map Item.ownerId = _
    rw [find?_updateFirst_self hitem' hidi]; rfl

/-- Witness for the amended C6: the concrete admin gift debits the recipient
and ends with one history entry. -/
theorem C6_admin_gift_amended_witness :
    ∃ db1, adminGift "u1" "i1" 0 dbC4 = .ok db1 ∧
      db1.history = dbC4.history ++
        [⟨"u1", "Admin issued gift i1 (charged 5 TON)", 0⟩] := by
  obtain ⟨db1, h1, -, -, h4⟩ := C6_admin_gift_amended dbC4 "u1" "i1" 0 uW itW
    (by decide) (by decide) rfl rfl rfl (by norm_num [uW, itW])
  exact ⟨db1, h1, by simpa using h4⟩

/-- C7: `POST /api/tx/pay` does NOT reject when the authenticated caller's own
user record is absent: both the buy path and the gift path throw an uncaught
`TypeError` (reading `buyer.balance` of `undefined`) instead of answering 404.
The persisted snapshot is unchanged only because `saveDB` is never reached. -/
theorem C7_absent_caller_crashes_pay :
    pay "ghost" "i1" "buy" "" 0 dbC4 = .crash dbC4 ∧
    pay "ghost" "i1" "gift" "u1" 0 dbC4 = .crash dbC4 := ⟨rfl, rfl⟩

/-- C8: an upgrade by the item's owner sets `stars` to `max 0 (stars − 1)` —
which never increases a non-negative star count and never drops below zero —
and increments `level` by exactly one; a non-owner caller is rejected with 403
and the snapshot is unchanged. -/
theorem C8_upgrade_monotonic (db : DB) (c itemId : String) (t : Nat)
    (item : Item)
    (hiid : itemId ≠ "")
    (hitem : findItem db itemId = some item) :
    (item.ownerId = some c →
      ∃ db1, upgrade c itemId t db = .ok db1 ∧
        findItem db1 itemId = some { item with
          stars := max 0 (item.stars - 1), level := item.level + 1 } ∧
        0 ≤ max 0 (item.stars - 1) ∧
        (0 ≤ item.stars → max 0 (item.stars - 1) ≤ item.stars) ∧
        item.level < item.level + 1) ∧
    (item.ownerId ≠ some c →
      upgrade c itemId t db = .err 403 "Not owner" db) := by
  have hitem' : db.items.find? (fun x => x.id == itemId) = some item := hitem
  have hidi : (item.id == itemId) = true := by simpa using List.find?_some hitem'
  constructor
  · intro howner
    refine ⟨_, upgrade_ok_spec hiid hitem' howner, ?_, le_max_left 0 _, ?_,
      lt_add_one _⟩
    · show ((updateFirst (fun x => x.id == itemId) _ db.items).find?
          (fun x => x.id == itemId)) = _
      rw [find?_updateFirst_self hitem' hidi]
    · intro hs
      exact max_le hs (by linarith)
  · intro hnot
    unfold upgrade
    rw [if_neg hiid]
    simp only [findItem, hitem']
    rw [if_pos hnot]

/-- An item owned by `u1`, for the C8 witness. -/
def itC8 : Item := ⟨"i1", "Cap", 5, 5, "img", "Default", 3, 0, some "u1", 0⟩

/-- Snapshot holding `itC8`, for the C8 witness. -/
def dbC8 : DB := ⟨[uW], [itC8], [], [], []⟩

/-- Witness for C8: the owner's upgrade takes stars 3 → 2 and level 0 → 1,
and a stranger's upgrade is rejected. -/
theorem C8_upgrade_monotonic_witness :
    (∃ db1, upgrade "u1" "i1" 7 dbC8 = .ok db1 ∧
      findItem db1 "i1" = some { itC8 with
                                   stars := max 0 (itC8.stars - 1),
                                   level := itC8.level + 1 }) ∧
    upgrade "u2" "i1" 7 dbC8 = .err 403 "Not owner" dbC8 := by
  obtain ⟨hpos, -⟩ := C8_upgrade_monotonic dbC8 "u1" "i1" 7 itC8 (by decide) rfl
  obtain ⟨hpos2, hneg2⟩ := C8_upgrade_monotonic dbC8 "u2" "i1" 7 itC8 (by decide) rfl
  obtain ⟨db1, h1, h2, -⟩ := hpos rfl
  exact ⟨⟨db1, h1, h2⟩, hneg2 (by decide)⟩

/-- C9: store.js's `transact` takes no lock, so two concurrent full-balance
withdrawal requests can both load the same snapshot before either saves: both
then succeed (no "Insufficient balance" for a loser) and the second save wins,
leaving one payment record lost.  Only the fully serial schedule shows the
claimed behaviour (second request rejected). -/
theorem C9_no_mutual_exclusion_double_spend :
    ((racyPair (withdrawRequest "u1" 10 "addr12345" "p1" "n1" 0)
        (withdrawRequest "u1" 10 "addr67890" "p2" "n2" 0) dbW).1.isOk = true) ∧
    ((racyPair (withdrawRequest "u1" 10 "addr12345" "p1" "n1" 0)
        (withdrawRequest "u1" 10 "addr67890" "p2" "n2" 0) dbW).2.1.isOk = true) ∧
    ((racyPair (withdrawRequest "u1" 10 "addr12345" "p1" "n1" 0)
        (withdrawRequest "u1" 10 "addr67890" "p2" "n2" 0) dbW).2.2.payments.map
          Payment.id = ["p2"]) ∧
    ((racyPair (withdrawRequest "u1" 10 "addr12345" "p1" "n1" 0)
        (withdrawRequest "u1" 10 "addr67890" "p2" "n2" 0) dbW).2.2.users.map
          User.balance = [10 - 10]) ∧
    ((serialPair (withdrawRequest "u1" 10 "addr12345" "p1" "n1" 0)
        (withdrawRequest "u1" 10 "addr67890" "p2" "n2" 0) dbW).1.isOk = true) ∧
    ((serialPair (withdrawRequest "u1" 10 "addr12345" "p1" "n1" 0)
        (withdrawRequest "u1" 10 "addr67890" "p2" "n2" 0) dbW).2.1.errInfo =
      some (400, "Insufficient balance")) := by
  refine ⟨rfl, rfl, rfl, rfl, rfl, ?_⟩
  have hu0 : dbW.users.find? (fun x => x.id == "u1") = some uW := rfl
  have h1 := @withdrawRequest_ok_spec "u1" 10 "addr12345" "p1" "n1" 0 dbW uW
    hu0 (by norm_num) (by norm_num [uW]) (by decide)
  have hf2 : (updateFirst (fun x => x.id == "u1")
      (fun x => { x with balance := x.balance - 10 }) dbW.users).find?
        (fun x => x.id == "u1") = some { uW with balance := uW.balance - 10 } :=
    find?_updateFirst_self hu0 rfl
  show (withdrawRequest "u1" 10 "addr67890" "p2" "n2" 0
      (withdrawRequest "u1" 10 "addr12345" "p1" "n1" 0 dbW).db).errInfo = _
  rw [h1]
  unfold withdrawRequest withdrawMutator
  rw [if_neg (by norm_num : ¬ (10 : ℚ) ≤ 0)]
  rw [if_neg (by decide : ¬ ("addr67890".length < 5))]
  simp only [Outcome.db, findUser]
  rw [hf2]
  norm_num [uW, Outcome.errInfo]

/-- C5 counterexample: `dbC4` satisfies the two-sided ownership invariant,
but the admin item update (an ownership-changing operation per the claim)
succeeds while setting `ownerId` without touching any owned set — breaking
the invariant. -/
theorem C5_counterexample_update_breaks_invariant :
    ownershipConsistent dbC4 = true ∧
    (itemsUpdate "i1" ({ ownerId := some (some "u1") } : ItemFields) dbC4).isOk
      = true ∧
    ownershipConsistent
      (itemsUpdate "i1" ({ ownerId := some (some "u1") } : ItemFields)
        dbC4).db = false := ⟨rfl, rfl, rfl⟩

/-- C5 (amended): in snapshots with pairwise-distinct user ids and item ids,
the two-sided ownership invariant is preserved by buy and gift
(`POST /api/tx/pay`), admin gift, admin transfer and admin burn — whatever
their arguments and outcome.  (Item update, bulk import and item delete can
break it, as the counterexample shows.) -/
theorem C5_ownership_invariant_amended (db : DB)
    (hNu : (db.users.map User.id).Nodup)
    (hNi : (db.items.map Item.id).Nodup)
    (hcons : ownershipConsistent db = true) :
    (∀ c itemId mode tu t,
      ownershipConsistent (pay c itemId mode tu t db).db = true) ∧
    (∀ tu itemId t, ownershipConsistent (adminGift tu itemId t db).db = true) ∧
    (∀ itemId tu t, ownershipConsistent (transfer itemId tu t db).db = true) ∧
    (∀ itemId t, ownershipConsistent (burn itemId t db).db = true) := by
  obtain ⟨hOL, hOB⟩ := ownershipConsistent_iff.1 hcons
  refine ⟨?_, ?_, ?_, ?_⟩
  · intro c itemId mode tu t
    unfold pay
    by_cases h0 : (itemId = "" ∨ mode = "")
    · rw [if_pos h0]; exact hcons
    · rw [if_neg h0]
      cases hitm : findItem db itemId with
      | none => simp only [hitm]; exact hcons
      | some item =>
        simp only [hitm]
        by_cases hown : item.ownerId.isSome = true
        · rw [if_pos hown]; exact hcons
        · rw [if_neg hown]
          by_cases hmode : mode = "buy"
          · rw [if_pos hmode]
            cases hbuyer : findUser db c with
            | none => simp only [hbuyer]; exact hcons
            | some buyer =>
              simp only [hbuyer]
              by_cases hbal : buyer.balance < item.price
              · rw [if_pos hbal]; exact hcons
              · rw [if_neg hbal]
                rw [ownershipConsistent_iff]
                exact invariant_assign hOL hOB hbuyer hitm
                  (Option.not_isSome_iff_eq_none.1 hown) rfl rfl
          · rw [if_neg hmode]
            by_cases hmode2 : mode = "gift"
            · rw [if_pos hmode2]
              by_cases htu : tu = ""
              · rw [if_pos htu]; exact hcons
              · rw [if_neg htu]
                cases hrec : findUser db tu with
                | none => simp only [hrec]; exact hcons
                | some recipient =>
                  simp only [hrec]
                  cases hbuyer : findUser db c with
                  | none => simp only [hbuyer]; exact hcons
                  | some buyer =>
                    simp only [hbuyer]
                    by_cases hbal : buyer.balance < item.price
                    · rw [if_pos hbal]; exact hcons
                    · rw [if_neg hbal]
                      rw [ownershipConsistent_iff]
                      have hstab := @invariant_stable_user_update db.users
                        db.items (fun x => x.id == c)
                        (fun x : User =>
                          { x with balance := x.balance - item.price })
                        (fun x => rfl) (fun x => rfl) hOL hOB
                      obtain ⟨r', hr', hror⟩ :=
                        @find?_updateFirst_stable User (fun x => x.id == c)
                          (fun x => x.id == tu)
                          (fun x : User =>
                            { x with balance := x.balance - item.price })
                          db.users recipient hrec (fun x => rfl)
                      rcases hror with rfl | rfl
                      · exact invariant_assign hstab.1 hstab.2 hr' hitm
                          (Option.not_isSome_iff_eq_none.1 hown) rfl rfl
                      · exact @invariant_assign
                          (updateFirst (fun x => x.id == c)
                            (fun x : User =>
                              { x with balance := x.balance - item.price })
                            db.users)
                          db.items tu itemId
                          ({ recipient with
                              balance := recipient.balance - item.price } : User)
                          item
                          (fun x : User =>
                            { x with owned := x.owned ++ [item.id],
                                     gifts := x.gifts + 1 })
                          hstab.1 hstab.2 hr' hitm
                          (Option.not_isSome_iff_eq_none.1 hown) rfl rfl
            · rw [if_neg hmode2]; exact hcons
  · intro tu itemId t
    unfold adminGift
    by_cases h0 : (tu = "" ∨ itemId = "")
    · rw [if_pos h0]; exact hcons
    · rw [if_neg h0]
      cases huser : findUser db tu with
      | none => simp only [huser]; exact hcons
      | some user =>
        simp only [huser]
        cases hitm : findItem db itemId with
        | none => simp only [hitm]; exact hcons
        | some item =>
          simp only [hitm]
          by_cases hown : item.ownerId.isSome = true
          · rw [if_pos hown]; exact hcons
          · rw [if_neg hown]
            by_cases hbal : user.balance < item.price
            · rw [if_pos hbal]; exact hcons
            · rw [if_neg hbal]
              rw [ownershipConsistent_iff]
              exact invariant_assign hOL hOB huser hitm
                (Option.not_isSome_iff_eq_none.1 hown) rfl rfl
  · intro itemId tu t
    unfold transfer
    by_cases h0 : (itemId = "" ∨ tu = "")
    · rw [if_pos h0]; exact hcons
    · rw [if_neg h0]
      cases hitm : findItem db itemId with
      | none => simp only [hitm]; exact hcons
      | some it =>
        simp only [hitm]
        cases htoU : findUser db tu with
        | none => simp only [htoU]; exact hcons
        | some toU =>
          simp only [htoU]
          rw [ownershipConsistent_iff]
          exact invariant_transfer hNu hNi hOL hOB htoU hitm
  · intro itemId t
    unfold burn
    by_cases h0 : itemId = ""
    · rw [if_pos h0]; exact hcons
    · rw [if_neg h0]
      cases hitm : findItem db itemId with
      | none => simp only [hitm]; exact hcons
      | some it =>
        simp only [hitm]
        rw [ownershipConsistent_iff]
        exact invariant_burn hNu hNi hOL hOB hitm

/-- Witness for the amended C5: a concrete buy keeps the invariant. -/
theorem C5_ownership_invariant_amended_witness :
    ownershipConsistent (pay "u1" "i1" "buy" "" 0 dbC4).db = true := by
  obtain ⟨hpay, -, -, -⟩ :=
    C5_ownership_invariant_amended dbC4 (by decide) (by decide) rfl
  exact hpay "u1" "i1" "buy" "" 0

/-! ### Injectivity of decimal rendering, for the id-freshness analysis (C10) -/

/-- Inverse of `Nat.digitChar` on decimal digits. -/
def charDigit (c : Char) : Nat := c.toNat - 48

theorem charDigit_digitChar : ∀ k, k < 10 →
    charDigit (Nat.digitChar k) = k := by decide

/-- Decimal value of a digit string. -/
def valDigits (l : List Char) : Nat :=
  l.foldl (fun a c => 10 * a + charDigit c) 0

theorem valDigits_append_singleton (l : List Char) (c : Char) :
    valDigits (l ++ [c]) = 10 * valDigits l + charDigit c := by
  unfold valDigits
  rw [List.foldl_append]
  rfl

theorem toDigitsCore_append (b : Nat) :
    ∀ fuel n acc, Nat.toDigitsCore b fuel n acc =
      Nat.toDigitsCore b fuel n [] ++ acc := by
  intro fuel
  induction fuel with
  | zero => intro n acc; rfl
  | succ fuel ih =>
    intro n acc
    simp only [Nat.toDigitsCore]
    by_cases h : n / b = 0
    · simp [h]
    · rw [if_neg h, if_neg h, ih (n / b) (Nat.digitChar (n % b) :: acc),
        ih (n / b) [Nat.digitChar (n % b)], List.append_assoc]
      rfl

theorem toDigitsCore_val : ∀ fuel, ∀ n < 10 ^ fuel,
    valDigits (Nat.toDigitsCore 10 fuel n []) = n := by
  intro fuel
  induction fuel with
  | zero =>
    intro n hn
    interval_cases n
    rfl
  | succ fuel ih =>
    intro n hn
    simp only [Nat.toDigitsCore]
    by_cases h : n / 10 = 0
    · rw [if_pos h]
      have hn10 : n < 10 := (Nat.div_eq_zero_iff (by norm_num)).1 h
      show valDigits [Nat.digitChar (n % 10)] = n
      have hmod : n % 10 = n := Nat.mod_eq_of_lt hn10
      unfold valDigits
      simp only [List.foldl_cons, List.foldl_nil]
      rw [charDigit_digitChar (n % 10) (Nat.mod_lt _ (by norm_num))]
      omega
    · rw [if_neg h, toDigitsCore_append, valDigits_append_singleton]
      have hdiv : n / 10 < 10 ^ fuel := by
        rw [Nat.div_lt_iff_lt_mul (by norm_num)]
        rw [← pow_succ]
        exact hn
      rw [ih (n / 10) hdiv,
        charDigit_digitChar (n % 10) (Nat.mod_lt _ (by norm_num))]
      omega

theorem valDigits_toDigits (n : Nat) :
    valDigits (Nat.toDigits 10 n) = n := by
  apply toDigitsCore_val
  calc n < 10 ^ n := Nat.lt_pow_self (by norm_num) n
  _ ≤ 10 ^ (n + 1) := Nat.pow_le_pow_right (by norm_num) (Nat.le_succ n)

theorem string_data_inj {s t : String} (h : s.data = t.data) : s = t := by
  cases s; cases t; exact congrArg String.mk h

theorem repr_inj {m n : Nat} (h : Nat.repr m = Nat.repr n) : m = n := by
  have hdata : Nat.toDigits 10 m = Nat.toDigits 10 n := by
    have hd := congrArg String.data h
    simpa [Nat.repr, List.asString] using hd
  have hv := congrArg valDigits hdata
  rwa [valDigits_toDigits, valDigits_toDigits] at hv

/-- The id `'nft_' + (1000 + k)` determines `k`. -/
theorem nftId_inj : Function.Injective
    (fun k : Nat => "nft_" ++ toString (1000 + k)) := by
  intro a b hab
  simp only [] at hab
  have hdata := congrArg String.data hab
  rw [String.data_append, String.data_append] at hdata
  have hcancel := List.append_cancel_left hdata
  have hrepr : Nat.repr (1000 + a) = Nat.repr (1000 + b) :=
    string_data_inj hcancel
  have := repr_inj hrepr
  omega

/-- The item ids are exactly `nft_1000 … nft_(1000+count−1)` — the shape
every snapshot built by creates and bulk imports alone has. -/
def idsCanonicalL (items : List Item) : Prop :=
  items.map Item.id =
    (List.range items.length).map (fun k => "nft_" ++ toString (1000 + k))

theorem idsCanonicalL_nodup {items : List Item} (h : idsCanonicalL items) :
    (items.map Item.id).Nodup := by
  rw [h]
  exact (List.nodup_range _).map nftId_inj

theorem idsCanonicalL_fresh {items : List Item} (h : idsCanonicalL items) :
    ("nft_" ++ toString (1000 + items.length)) ∉ items.map Item.id := by
  rw [h]
  intro hmem
  obtain ⟨k, hk, heq⟩ := List.mem_map.1 hmem
  have hk' : k < items.length := List.mem_range.1 hk
  have := nftId_inj heq
  omega

theorem idsCanonicalL_append {items : List Item} (h : idsCanonicalL items)
    {it : Item} (hid : it.id = "nft_" ++ toString (1000 + items.length)) :
    idsCanonicalL (items ++ [it]) := by
  unfold idsCanonicalL at h ⊢
  rw [List.map_append, List.length_append, List.map_singleton, hid, h]
  simp [List.range_succ]

theorem bulkImport_canonical (now : Nat) :
    ∀ (rows : List ImportRow) (db : DB), idsCanonicalL db.items →
      idsCanonicalL ((rows.foldl (bulkImportStep now) db).items) := by
  intro rows
  induction rows with
  | nil => intro db h; exact h
  | cons x xs ih =>
    intro db h
    rw [List.foldl_cons]
    exact ih _ (idsCanonicalL_append h rfl)

/-- C10 (amended): item creation and bulk import assign
`'nft_' + (1000 + count)`; in snapshots whose ids are exactly the
count-derived ones (`idsCanonicalL`, the shape reachable by creates and bulk
imports alone), the new id is fresh and the ids remain canonical and
pairwise distinct.  (After a delete or burn this shape is lost and the next
create can duplicate an id — see the counterexample.) -/
theorem C10_count_derived_ids_amended (db : DB)
    (hcanon : idsCanonicalL db.items)
    (name : String) (hname : name ≠ "") (price rating : ℚ)
    (img : Option String) (collection : String) (t : Nat)
    (rows : List ImportRow) :
    (∃ db1, itemsCreate name price img collection rating t db = .ok db1 ∧
      ("nft_" ++ toString (1000 + db.items.length)) ∉ db.items.map Item.id ∧
      idsCanonicalL db1.items ∧ (db1.items.map Item.id).Nodup) ∧
    idsCanonicalL ((bulkImport rows t db).db.items) ∧
    (((bulkImport rows t db).db.items.map Item.id)).Nodup := by
  have hbulk : idsCanonicalL ((rows.foldl (bulkImportStep t) db).items) :=
    bulkImport_canonical t rows db hcanon
  have hcreate : itemsCreate name price img collection rating t db = .ok
      { db with items := db.items ++
          [{ id := "nft_" ++ toString (1000 + db.items.length), name := name,
             price := price, rating := rating,
             img := img.getD ("https://picsum.photos/seed/" ++ name ++ "/800"),
             collection := collection, stars := 3, level := 0, ownerId := none,
             createdAt := t }] } := by
    unfold itemsCreate
    rw [if_neg hname]
  refine ⟨⟨_, hcreate, idsCanonicalL_fresh hcanon, ?_, ?_⟩, hbulk,
    idsCanonicalL_nodup hbulk⟩
  · exact idsCanonicalL_append hcanon rfl
  · exact idsCanonicalL_nodup (idsCanonicalL_append hcanon rfl)

/-- Witness for the amended C10: creating twice from the empty catalog yields
the distinct ids `nft_1000`, `nft_1001`. -/
theorem C10_count_derived_ids_amended_witness :
    ∃ db1, itemsCreate "A" 1 none "Default" 5 0 ⟨[], [], [], [], []⟩ =
      .ok db1 ∧ (db1.items.map Item.id).Nodup := by
  obtain ⟨⟨db1, h1, -, -, h4⟩, -⟩ :=
    C10_count_derived_ids_amended ⟨[], [], [], [], []⟩ (by simp [idsCanonicalL])
      "A" (by decide) 1 5 none "Default" 0 []
  exact ⟨db1, h1, h4⟩

/-- Two catalog items carrying the count-derived ids `nft_1000`, `nft_1001`. -/
def itA : Item := ⟨"nft_1000", "A", 1, 5, "i", "Default", 3, 0, none, 0⟩

/-- See `itA`. -/
def itB : Item := ⟨"nft_1001", "B", 1, 5, "i", "Default", 3, 0, none, 0⟩

/-- Snapshot with the two count-derived items, for the C10 counterexample. -/
def dbC10 : DB := ⟨[], [itA, itB], [], [], []⟩

/-- C10 counterexample: after deleting `nft_1000`, the next create computes
`'nft_' + (1000 + 1)` and re-issues the id `nft_1001`, which is still held by
an existing item — the ids are no longer pairwise distinct. -/
theorem C10_counterexample_duplicate_id_after_delete :
    (itemsDelete "nft_1000" dbC10).isOk = true ∧
    ((itemsCreate "C" 1 none "Default" 5 1
        (itemsDelete "nft_1000" dbC10).db).db.items.map Item.id =
      ["nft_1001", "nft_1001"]) ∧
    ¬ ((itemsCreate "C" 1 none "Default" 5 1
        (itemsDelete "nft_1000" dbC10).db).db.items.map Item.id).Nodup := by
  refine ⟨rfl, rfl, by decide⟩

end GiftNFT
